import Mathlib

/-!
Shallow embedding of `pymap-copy.py`, a one-shot IMAP mailbox replicator.

The program is a single sequential script.  We embed it as a pure function
`fullRun : Args → World → RunRes`, where `Args` holds the command-line
options that influence control flow, `World` describes the behaviour of the
two IMAP servers (connection/login results, quotas, folder listings and the
per-message data the servers would return), and `RunRes` records the final
counters (`stats`), the list of state-changing IMAP commands issued
(`trace` : CREATE / SUBSCRIBE / APPEND) and how the run ended (`Outcome`).

Python-level primitives (`str.lower`, `str.replace`, `str.split`, the `in`
substring test, `dict` insertion and lookup) are embedded explicitly so that
the Lean definitions line up with the Python source line by line.  Buffered
FETCH batches only group messages for network transfer; per-message
processing is identical across batch boundaries, so a folder's buffer list
is represented by the flat concatenation of its message slices.
-/

/-- Python `bytes.lower` / ASCII `str.lower`: lowercase every character.
`Char.toLower` maps exactly the ASCII range 65-90 to 97-122, which is the
`bytes.lower` semantics used on IMAP flags and server responses. -/
def strToLower (s : String) : String := String.mk (s.data.map Char.toLower)

/-- Python `str.replace(old, new)` for single-character `old`/`new`,
which is how the script rewrites hierarchy delimiters. -/
def pyReplace (s : String) (old new : Char) : String :=
  String.mk (s.data.map (fun c => if c = old then new else c))

/-- Worker for `pySplit`: split a character list on a separator.
Mirrors Python `str.split(sep)` (no collapsing of empty pieces). -/
def splitChar (sep : Char) : List Char → List (List Char)
  | [] => [[]]
  | c :: cs =>
    match splitChar sep cs with
    | [] => [[]]
    | p :: ps => if c = sep then [] :: p :: ps else (c :: p) :: ps

/-- Python `s.split(sep)` for a single-character separator. -/
def pySplit (s : String) (sep : Char) : List String :=
  (splitChar sep s.data).map String.mk

/-- Worker for `pySplit1`: find the first separator, if any. -/
def splitOnce (sep : Char) : List Char → Option (List Char × List Char)
  | [] => none
  | c :: cs =>
    if c = sep then some ([], cs)
    else
      match splitOnce sep cs with
      | none => none
      | some (l, r) => some (c :: l, r)

/-- Python `s.split(sep, 1)` unpacked into two values: `none` models the
`ValueError` raised when the separator is absent. -/
def pySplit1 (s : String) (sep : Char) : Option (String × String) :=
  (splitOnce sep s.data).map (fun p => (String.mk p.1, String.mk p.2))

/-- Boolean list-front test used by the substring test `listSub`. -/
def listPfx [DecidableEq α] : List α → List α → Bool
  | [], _ => true
  | _ :: _, [] => false
  | a :: as, b :: bs => if a = b then listPfx as bs else false

/-- Boolean contiguous-sublist test used by the substring test `pyIn`. -/
def listSub [DecidableEq α] (n : List α) : List α → Bool
  | [] => listPfx n []
  | b :: bs => listPfx n (b :: bs) || listSub n bs

/-- Python `needle in hay` on strings: contiguous substring containment. -/
def pyIn (needle hay : String) : Bool := listSub needle.data hay.data

/-- Python `dict[k] = v` on an association list keyed by message UID:
overwrite the value if the key exists, append otherwise. -/
def pyDictInsert (l : List (Nat × α)) (k : Nat) (v : α) : List (Nat × α) :=
  match l with
  | [] => [(k, v)]
  | (k', v') :: t => if k' = k then (k, v) :: t else (k', v') :: pyDictInsert t k v

/-- Python `dict[k]` on an association list keyed by message UID,
returning `none` for the `KeyError` case. -/
def pyDictFind (l : List (Nat × α)) (k : Nat) : Option α :=
  (l.find? (fun p => p.1 == k)).map (fun p => p.2)

/-- Python `dict[k]` on the string-keyed redirection dictionary.  Repeated
assignments to one key overwrite, so the last binding wins. -/
def strDictGet (l : List (String × String)) (k : String) : Option String :=
  (l.reverse.find? (fun p => p.1 == k)).map (fun p => p.2)

/-- Python `k in dict` on the redirection dictionary. -/
def strDictHasKey (l : List (String × String)) (k : String) : Bool :=
  l.any (fun p => p.1 == k)

/-- Lexicographic order on character lists: Python string `<`. -/
def charListLt : List Char → List Char → Bool
  | [], [] => false
  | [], _ :: _ => true
  | _ :: _, [] => false
  | a :: as, b :: bs => if a < b then true else if b < a then false else charListLt as bs

/-- Python string `<` (code-point lexicographic). -/
def strLt (a b : String) : Bool := charListLt a.data b.data

/-- Modelled from the spec: `utils.decode_mime` (not under `src/`) renders a
MIME-encoded header as readable text; header decoding is display-only and out
of scope (spec §1), so the model carries the decoded text through unchanged. -/
def decode_mime (s : String) : String := s

/-- Modelled from the spec: `utils.beautysized` (not under `src/`) renders a
byte count human-readably; the rendering is display-only and out of scope
(spec §1), so the model renders the number itself. -/
def beautysized (n : Nat) : String := toString n

/-- `default_port` (pymap-copy.py lines 18-21): 143 for `starttls`/`none`,
993 otherwise. -/
def default_port (encryption : String) : Nat :=
  if encryption = "starttls" ∨ encryption = "none" then 143 else 993

/-- The attribute names of the `argparse.Namespace` produced by the parser
(lines 86-138).  `argparse` derives each name from the option string by
replacing `-` with `_`, so every key uses underscores. -/
def argNamespaceKeys : List String :=
  ["dry_run", "list", "incremental", "abort_on_error", "buffer_size",
   "denied_flags", "redirect", "ignore_quota", "ignore_folder_flags",
   "max_line_length", "max_mail_size", "no_colors", "skip_empty_folders",
   "ssl_no_verify", "source_user", "source_pass", "source_server",
   "source_encryption", "source_port", "source_root", "source_mailbox",
   "destination_user", "destination_pass", "destination_server",
   "destination_encryption", "destination_port", "destination_root",
   "destination_root_merge", "destination_no_subscribe"]

/-- Lines 115-116 and 141-142: `--source-port` defaults to 993 at parse time;
afterwards `if 'source-port' not in args: args.source_port = default_port(...)`
re-assigns it.  `supplied` is the port given on the command line, if any. -/
def effectiveSourcePort (supplied : Option Nat) (encryption : String) : Nat :=
  let parsed := supplied.getD 993
  if !(argNamespaceKeys.contains "source-port") then default_port encryption
  else parsed

/-- Lines 129-130 and 144-145: the destination-side twin of
`effectiveSourcePort`. -/
def effectiveDestinationPort (supplied : Option Nat) (encryption : String) : Nat :=
  let parsed := supplied.getD 993
  if !(argNamespaceKeys.contains "destination-port") then default_port encryption
  else parsed

/-- `SPECIAL_FOLDER_FLAGS` (line 148). -/
def SPECIAL_FOLDER_FLAGS : List String :=
  ["\\Archive", "\\Junk", "\\Drafts", "\\Trash", "\\Sent"]

/-- Lines 149 and 179-180: `denied_flags = [b'\recent']`, extended, when
`--denied-flags` is a non-empty string, with `'\' + flag` for each comma
token of the lowercased argument. -/
def effectiveDeniedFlags (deniedArg : Option String) : List String :=
  match deniedArg with
  | none => ["\\recent"]
  | some s =>
    if s = "" then ["\\recent"]
    else "\\recent" :: (pySplit (strToLower s) ',').map (fun t => "\\" ++ t)

/-- Line 578: the flag generator passed to APPEND,
`(flag for flag in flags if flag.lower() not in denied_flags)`. -/
def appendFlagFilter (flags denied : List String) : List String :=
  flags.filter (fun fl => !(denied.contains (strToLower fl)))

/-- The command-line options that influence the modelled control flow.
Required credentials/hostnames, styling options and the buffer size (whose
batching is invisible to per-message processing) carry no information the
model needs and are omitted. -/
structure Args where
  dry_run : Bool
  list : Bool
  incremental : Bool
  abort_on_error : Bool
  denied_flags : Option String
  redirect : List String
  ignore_quota : Bool
  ignore_folder_flags : Bool
  max_line_length : Option Nat
  max_mail_size : Option Nat
  skip_empty_folders : Bool
  source_mailbox : List String
  destination_root : String
  destination_root_merge : Bool
  destination_no_subscribe : Bool
deriving Repr

/-- A QUOTA response: storage usage and limit as the server reports them. -/
structure Quota where
  usage : Nat
  limit : Nat
deriving Repr, DecidableEq

/-- Destination server behaviour for one CREATE call: success, or an
`IMAPClientError` with the given message. -/
inductive CreateRes
  | ok
  | raiseErr (msg : String)
deriving Repr

/-- Destination server behaviour for one APPEND call: a status response
(line 578 `status = destination.append(...)`), or an `IMAPClientError`. -/
inductive AppendRes
  | resp (r : String)
  | raiseErr (msg : String)
deriving Repr, DecidableEq

/-- One source message as the source server presents it: the enumeration
FETCH yields `RFC822.SIZE` and (when present) `ENVELOPE`; the transfer FETCH
yields `FLAGS`, `RFC822` and `INTERNALDATE`.  `lineLengths` is the length of
each line of the RFC-822 payload split on LF (line 573). -/
structure SrcMsg where
  uid : Nat
  hasEnvelope : Bool
  envSubject : Option String
  msgId : String
  size : Nat
  flags : List String
  lineLengths : List Nat
  internalDate : String
  appendRes : AppendRes
deriving Repr, DecidableEq

/-- One `(flags, delimiter, name)` row of the source LIST response together
with the folder's messages in server order. -/
structure SrcFolder where
  name : String
  delim : Char
  flags : List String
  msgs : List SrcMsg
deriving Repr, DecidableEq

/-- One destination message as the destination server presents it. -/
structure DstMsgW where
  uid : Nat
  size : Nat
  msgId : String
deriving Repr, DecidableEq

/-- One row of the destination LIST response with its messages. -/
structure DstFolderW where
  name : String
  delim : Char
  flags : List String
  msgs : List DstMsgW
deriving Repr, DecidableEq

/-- The environment of one run: connection/login results, quota
capabilities, the two folder listings, and the destination's response to
each CREATE (keyed by folder name). -/
structure World where
  srcConnOk : Bool
  srcLoginOk : Bool
  dstConnOk : Bool
  dstLoginOk : Bool
  srcQuota : Option Quota
  dstQuota : Option Quota
  sourceFolders : List SrcFolder
  destFolders : List DstFolderW
  createRes : String → CreateRes

/-- Manifest row for one source message (lines 322-324):
`{'size': ..., 'subject': ..., 'msg_id': ...}`. -/
structure MsgMeta where
  size : Nat
  subject : String
  msgId : String
deriving Repr, DecidableEq

/-- Source folder manifest (lines 304-307): flags, the UID-keyed metadata
dictionary, cumulative size and the buffered UID list (kept here with the
full per-message fetch data, flattened across batches). -/
structure FolderMan where
  name : String
  flags : List String
  mails : List (Nat × MsgMeta)
  size : Nat
  buffer : List SrcMsg
deriving Repr, DecidableEq

/-- Destination manifest row (lines 373-377): size, plus the message-id
when incremental mode fetched the ENVELOPE. -/
structure DstMeta where
  size : Nat
  msgId : Option String
deriving Repr, DecidableEq

/-- Destination folder manifest (line 362). -/
structure DstMan where
  name : String
  flags : List String
  mails : List (Nat × DstMeta)
  size : Nat
deriving Repr, DecidableEq

/-- A structured error entry (lines 534-539 and 596-601):
`{size, subject, exception, folder, date, id}`. -/
structure ErrRecord where
  size : String
  subject : String
  exception : String
  folder : String
  date : String
  id : String
deriving Repr, DecidableEq

/-- The `stats` dictionary (lines 156-177), restricted to the counters the
program ever updates. -/
structure Stats where
  source_mails : Nat
  destination_mails : Nat
  processed : Nat
  errors : List ErrRecord
  skf_already_exists : Nat
  skf_empty : Nat
  skf_by_mailbox : Nat
  skm_already_exists : Nat
  skm_zero_size : Nat
  skm_max_size : Nat
  skm_max_line_length : Nat
  skm_no_envelope : Nat
  copied_mails : Nat
  copied_folders : Nat
deriving Repr, DecidableEq

/-- All counters zero, no errors (line 156). -/
def initStats : Stats := ⟨0, 0, 0, [], 0, 0, 0, 0, 0, 0, 0, 0, 0, 0⟩

/-- A state-changing IMAP command issued to the destination. -/
inductive Cmd
  | create (folder : String)
  | subscribe (folder : String)
  | append (folder : String) (flags : List String)
deriving Repr, DecidableEq

/-- Result of one per-message or per-folder step: normal continuation,
`KeyboardInterrupt` raised by `--abort-on-error` (lines 502, 607), or an
uncaught exception (`TypeError` / `ZeroDivisionError`). -/
inductive StepOut
  | ok
  | ki
  | crash
deriving Repr, DecidableEq

/-- How a run ends.  `abortLogin`/`abortQuota`/`exitListMode`/`abortRedirect`
are the `exit()` calls at lines 212, 251, 406 and 436; `crashed` is any
uncaught exception; `finishedAfterAbort` is the `KeyboardInterrupt` caught at
line 617 followed by normal teardown; `completed` falls off the end. -/
inductive Outcome
  | abortLogin
  | abortQuota
  | exitListMode
  | crashed
  | abortRedirect
  | finishedAfterAbort
  | completed
deriving Repr, DecidableEq

/-- Final state of a run: outcome, counters, and the CREATE/SUBSCRIBE/APPEND
commands issued, in order. -/
structure RunRes where
  outcome : Outcome
  stats : Stats
  trace : List Cmd
deriving Repr, DecidableEq

/-- Transfer-phase state: counters plus the command trace. -/
structure TState where
  stats : Stats
  trace : List Cmd
deriving Repr, DecidableEq

/-- Subject recorded in the manifest (lines 317-320): decode when the
envelope subject is non-empty, `(no subject)` otherwise. -/
def subjectOf (m : SrcMsg) : String :=
  match m.envSubject with
  | some s => if s = "" then "(no subject)" else decode_mime s
  | none => "(no subject)"

/-- Source enumeration of one folder's messages (lines 313-326): count
`no_envelope` for rows without an ENVELOPE, otherwise insert a manifest
row, add the size, and count `source_mails`. -/
def enumSrcMsgs (st : Stats) (mails : List (Nat × MsgMeta)) (fsize : Nat) :
    List SrcMsg → Stats × List (Nat × MsgMeta) × Nat
  | [] => (st, mails, fsize)
  | m :: ms =>
    if m.hasEnvelope = false then
      enumSrcMsgs { st with skm_no_envelope := st.skm_no_envelope + 1 } mails fsize ms
    else
      enumSrcMsgs { st with source_mails := st.source_mails + 1 }
        (pyDictInsert mails m.uid ⟨m.size, subjectOf m, m.msgId⟩) (fsize + m.size) ms

/-- Source enumeration of one folder (lines 287-336): apply the
`--source-mailbox` filter, skip empty folders under `--skip-empty-folders`,
otherwise build its manifest and append it to the source db. -/
def enumSourceFolder (a : Args) (st : Stats) (db : List FolderMan) (f : SrcFolder) :
    Stats × List FolderMan :=
  if a.source_mailbox ≠ [] ∧ f.name ∉ a.source_mailbox then (st, db)
  else if f.msgs = [] ∧ a.skip_empty_folders then (st, db)
  else
    ((enumSrcMsgs st [] 0 f.msgs).1,
     db ++ [⟨f.name, f.flags, (enumSrcMsgs st [] 0 f.msgs).2.1,
            (enumSrcMsgs st [] 0 f.msgs).2.2, f.msgs⟩])

/-- Source enumeration over the whole LIST response. -/
def enumSource (a : Args) (st0 : Stats) (folders : List SrcFolder) :
    Stats × List FolderMan :=
  folders.foldl (fun acc f => enumSourceFolder a acc.1 acc.2 f) (st0, [])

/-- Destination enumeration of one folder's messages (lines 371-382):
record size (plus message-id in incremental mode) and count
`destination_mails`. -/
def enumDstMsgs (a : Args) (st : Stats) (mails : List (Nat × DstMeta)) (fsize : Nat) :
    List DstMsgW → Stats × List (Nat × DstMeta) × Nat
  | [] => (st, mails, fsize)
  | m :: ms =>
    enumDstMsgs a { st with destination_mails := st.destination_mails + 1 }
      (pyDictInsert mails m.uid ⟨m.size, if a.incremental then some m.msgId else none⟩)
      (fsize + m.size) ms

/-- Destination enumeration of one folder (lines 349-382).  When a
`--source-mailbox` filter is active the folder name is rewritten with the
source delimiter before the membership test (line 356); if the source
listing was empty that delimiter is still `None` and `str.replace` raises
`TypeError`, modelled by `Except.error`. -/
def enumDestFolder (a : Args) (sdelim : Option Char) (ddelim : Char)
    (st : Stats) (db : List DstMan) (f : DstFolderW) :
    Except Unit (Stats × List DstMan) :=
  if a.source_mailbox ≠ [] then
    match sdelim with
    | none => Except.error ()
    | some sd =>
      if pyReplace f.name ddelim sd ∉ a.source_mailbox then
        Except.ok ({ st with skf_by_mailbox := st.skf_by_mailbox + 1 }, db)
      else
        Except.ok ((enumDstMsgs a st [] 0 f.msgs).1,
          db ++ [⟨f.name, f.flags, (enumDstMsgs a st [] 0 f.msgs).2.1,
                 (enumDstMsgs a st [] 0 f.msgs).2.2⟩])
  else
    Except.ok ((enumDstMsgs a st [] 0 f.msgs).1,
      db ++ [⟨f.name, f.flags, (enumDstMsgs a st [] 0 f.msgs).2.1,
             (enumDstMsgs a st [] 0 f.msgs).2.2⟩])

/-- Destination enumeration over the listing, threading the failure case. -/
def enumDest (a : Args) (sdelim : Option Char) (ddelim : Char) (st : Stats)
    (db : List DstMan) : List DstFolderW → Except Unit (Stats × List DstMan)
  | [] => Except.ok (st, db)
  | f :: fs =>
    match enumDestFolder a sdelim ddelim st db f with
    | Except.error e => Except.error e
    | Except.ok (st2, db2) => enumDest a sdelim ddelim st2 db2 fs

/-- Destination enumeration (lines 348-387).  The delimiter used for the
rewrites is captured from the first LIST row (lines 351-352). -/
def enumDestAll (a : Args) (sdelim : Option Char) (st : Stats)
    (folders : List DstFolderW) : Except Unit (Stats × List DstMan) :=
  match folders with
  | [] => Except.ok (st, [])
  | f :: _ => enumDest a sdelim f.delim st [] folders

/-- Destination folder name computation (lines 443-462), after the source
and destination delimiters are known: delimiter rewrite, destination-root
prefixing, special-use linking, then explicit redirections. -/
def computeDfName (a : Args) (sdelim ddelim : Char) (destDb : List DstMan)
    (redirs : List (String × String)) (sfName : String) (sfFlags : List String) :
    String :=
  let df1 := pyReplace sfName sdelim ddelim
  let df2 :=
    if a.destination_root ≠ "" then
      if a.destination_root_merge = false ∨
          (df1.startsWith (a.destination_root ++ String.mk [ddelim]) = false ∧
           df1 ≠ a.destination_root) then
        a.destination_root ++ String.mk [ddelim] ++ df1
      else df1
    else df1
  let df3 :=
    if a.ignore_folder_flags = false then
      sfFlags.foldl (fun acc fl =>
        if SPECIAL_FOLDER_FLAGS.contains fl then
          match destDb.find? (fun d => d.flags.contains fl) with
          | some d => d.name
          | none => acc
        else acc) df2
    else df2
  match strDictGet redirs sfName with
  | some d => d
  | none => df3

/-- Restatement of the mapping rule from the spec's words, for comparison
with `computeDfName`: the delimiter rewrite prefixed with the destination
root when configured and not merged away. -/
def specRootedRewrite (a : Args) (sdelim ddelim : Char) (sfName : String) : String :=
  let rewritten := pyReplace sfName sdelim ddelim
  if a.destination_root ≠ "" then
    if a.destination_root_merge = false ∨
        (rewritten.startsWith (a.destination_root ++ String.mk [ddelim]) = false ∧
         rewritten ≠ a.destination_root) then
      a.destination_root ++ String.mk [ddelim] ++ rewritten
    else rewritten
  else rewritten

/-- Restatement from the spec's words: the destination folder linked to the
source folder through a shared special-use flag, when one exists. -/
def specSpecialLink (destDb : List DstMan) (sfFlags : List String) : Option String :=
  sfFlags.foldl (fun acc fl =>
    if SPECIAL_FOLDER_FLAGS.contains fl then
      match destDb.find? (fun d => d.flags.contains fl) with
      | some d => some d.name
      | none => acc
    else acc) none

/-- Restatement of the full mapping from the spec's words, with the claimed
precedence: explicit redirection, then special-use link (unless
`--ignore-folder-flags`), then the root-prefixed delimiter rewrite. -/
def specDfName (a : Args) (sdelim ddelim : Char) (destDb : List DstMan)
    (redirs : List (String × String)) (sfName : String) (sfFlags : List String) :
    String :=
  match strDictGet redirs sfName with
  | some d => d
  | none =>
    match (if a.ignore_folder_flags = false then specSpecialLink destDb sfFlags else none) with
    | some linked => linked
    | none => specRootedRewrite a sdelim ddelim sfName

/-- Line 573: the `--max-line-length` workaround test.  A limit of 0 is
falsy in Python, so the check is skipped. -/
def lineLengthSkip (a : Args) (m : SrcMsg) : Bool :=
  match a.max_line_length with
  | none => false
  | some l => decide (l ≠ 0) && m.lineLengths.any (fun x => decide (l < x))

/-- The error entry built in the `KeyError` handler (lines 528-539): every
field still holds its placeholder except the folder name and the exception,
whose `KeyError` argument is the missing UID. -/
def unknownErrRecord (uid : Nat) (dfName : String) : ErrRecord :=
  ⟨"(unknown)", "(unknown)", "KeyError: " ++ toString uid, dfName, "(unknown)", "(unknown)"⟩

/-- The error entry built in the `IMAPClientError` handler
(lines 588-601). -/
def appendErrRecord (meta : MsgMeta) (m : SrcMsg) (dfName : String)
    (exc : String) : ErrRecord :=
  ⟨beautysized meta.size, meta.subject, exc, dfName, m.internalDate, meta.msgId⟩

/-- Lines 582-583: a successful APPEND is one whose lowercased response
contains `append completed` or `(success)`. -/
def appendSuccess (resp : String) : Bool :=
  pyIn "append completed" (strToLower resp) || pyIn "(success)" (strToLower resp)

/-- Line 562: the message-ids of the destination manifest for a folder
(present only in incremental mode). -/
def destDupIds (destDb : List DstMan) (dfName : String) : List (Option String) :=
  match destDb.find? (fun d => d.name == dfName) with
  | some d => d.mails.map (fun p => p.2.msgId)
  | none => []

/-- Per-message transfer step (lines 511-610).  The progress computation at
line 512 divides by `source_mails` (crash when zero); the manifest lookup
failure records an error and continues without touching `processed`; then
the skip ladder runs: zero size, `--max-mail-size` (comparing against `None`
crashes), incremental duplicate, the dead dry-run branch, line length, and
finally APPEND, whose `finally` clause increments `processed`. -/
def transferMsg (a : Args) (denied : List String) (mails : List (Nat × MsgMeta))
    (dfName : String) (dfExists : Bool) (destDb : List DstMan)
    (ts : TState) (m : SrcMsg) : TState × StepOut :=
  if ts.stats.source_mails = 0 then (ts, StepOut.crash)
  else
    match pyDictFind mails m.uid with
    | none =>
      ({ ts with stats :=
          { ts.stats with errors := ts.stats.errors ++ [unknownErrRecord m.uid dfName] } },
       StepOut.ok)
    | some meta =>
      if meta.size = 0 then
        ({ ts with stats :=
            { ts.stats with skm_zero_size := ts.stats.skm_zero_size + 1,
                            processed := ts.stats.processed + 1 } }, StepOut.ok)
      else
        match a.max_mail_size with
        | none => (ts, StepOut.crash)
        | some maxSize =>
          if meta.size > maxSize then
            ({ ts with stats :=
                { ts.stats with skm_max_size := ts.stats.skm_max_size + 1,
                                processed := ts.stats.processed + 1 } }, StepOut.ok)
          else if a.incremental && dfExists &&
              (destDupIds destDb dfName).contains (some meta.msgId) then
            ({ ts with stats :=
                { ts.stats with skm_already_exists := ts.stats.skm_already_exists + 1,
                                processed := ts.stats.processed + 1 } }, StepOut.ok)
          else if a.dry_run then (ts, StepOut.ok)
          else if lineLengthSkip a m then
            ({ ts with stats :=
                { ts.stats with skm_max_line_length := ts.stats.skm_max_line_length + 1,
                                processed := ts.stats.processed + 1 } }, StepOut.ok)
          else
            let kept := appendFlagFilter m.flags denied
            let ts1 := { ts with trace := ts.trace ++ [Cmd.append dfName kept] }
            match m.appendRes with
            | AppendRes.resp r =>
              if appendSuccess r then
                ({ ts1 with stats :=
                    { ts1.stats with copied_mails := ts1.stats.copied_mails + 1,
                                     processed := ts1.stats.processed + 1 } }, StepOut.ok)
              else
                ({ ts1 with stats :=
                    { ts1.stats with
                        errors := ts1.stats.errors ++
                          [appendErrRecord meta m dfName
                            ("IMAPClientError: Unknown success message: " ++ r)],
                        processed := ts1.stats.processed + 1 } },
                 if a.abort_on_error then StepOut.ki else StepOut.ok)
            | AppendRes.raiseErr msg =>
              ({ ts1 with stats :=
                  { ts1.stats with
                      errors := ts1.stats.errors ++
                        [appendErrRecord meta m dfName ("IMAPClientError: " ++ msg)],
                      processed := ts1.stats.processed + 1 } },
               if a.abort_on_error then StepOut.ki else StepOut.ok)

/-- The buffer loop of one folder (lines 507-610), stopping at the first
`KeyboardInterrupt` or crash. -/
def transferMsgs (a : Args) (denied : List String) (mails : List (Nat × MsgMeta))
    (dfName : String) (dfExists : Bool) (destDb : List DstMan) :
    TState → List SrcMsg → TState × StepOut
  | ts, [] => (ts, StepOut.ok)
  | ts, m :: ms =>
    match transferMsg a denied mails dfName dfExists destDb ts m with
    | (ts2, StepOut.ok) => transferMsgs a denied mails dfName dfExists destDb ts2 ms
    | (ts2, e) => (ts2, e)

/-- Line 504: dry-run skips the buffer loop of every folder. -/
def folderBody (a : Args) (denied : List String) (destDb : List DstMan)
    (dfName : String) (dfExists : Bool) (sf : FolderMan) (ts : TState) :
    TState × StepOut :=
  if a.dry_run then (ts, StepOut.ok)
  else transferMsgs a denied sf.mails dfName dfExists destDb ts sf.buffer

/-- Per-folder transfer (lines 441-610): delimiter rewrite (crashing when a
delimiter was never captured), mapping, already-exists accounting or folder
creation, then the buffer loop. -/
def transferFolder (a : Args) (w : World) (denied : List String)
    (sdelim ddelim : Option Char) (destDb : List DstMan)
    (redirs : List (String × String)) (ts : TState) (sf : FolderMan) :
    TState × StepOut :=
  match sdelim, ddelim with
  | some sd, some dd =>
    let dfName := computeDfName a sd dd destDb redirs sf.name sf.flags
    let dfExists := destDb.any (fun d => d.name == dfName)
    if dfExists then
      folderBody a denied destDb dfName dfExists sf
        { ts with stats :=
            { ts.stats with skf_already_exists := ts.stats.skf_already_exists + 1 } }
    else if a.dry_run then
      folderBody a denied destDb dfName dfExists sf ts
    else if a.skip_empty_folders && sf.mails.isEmpty then
      ({ ts with stats := { ts.stats with skf_empty := ts.stats.skf_empty + 1 } },
       StepOut.ok)
    else
      match w.createRes dfName with
      | CreateRes.ok =>
        folderBody a denied destDb dfName dfExists sf
          { ts with
              stats := { ts.stats with copied_folders := ts.stats.copied_folders + 1 },
              trace := ts.trace ++ [Cmd.create dfName] ++
                (if !a.destination_no_subscribe then [Cmd.subscribe dfName] else []) }
      | CreateRes.raiseErr msg =>
        let ts1 := { ts with trace := ts.trace ++ [Cmd.create dfName] }
        if pyIn "alreadyexists" (strToLower msg) then
          folderBody a denied destDb dfName dfExists sf
            { ts1 with stats :=
                { ts1.stats with skf_already_exists := ts1.stats.skf_already_exists + 1 } }
        else if a.abort_on_error then (ts1, StepOut.ki)
        else (ts1, StepOut.ok)
  | _, _ => (ts, StepOut.crash)

/-- The folder loop of the transfer phase (lines 441-615). -/
def transferFolders (a : Args) (w : World) (denied : List String)
    (sdelim ddelim : Option Char) (destDb : List DstMan)
    (redirs : List (String × String)) :
    TState → List FolderMan → TState × StepOut
  | ts, [] => (ts, StepOut.ok)
  | ts, sf :: sfs =>
    match transferFolder a w denied sdelim ddelim destDb redirs ts sf with
    | (ts2, StepOut.ok) => transferFolders a w denied sdelim ddelim destDb redirs ts2 sfs
    | (ts2, e) => (ts2, e)

/-- Stable insertion used by `sortFolders`. -/
def insertFolderSorted (x : FolderMan) : List FolderMan → List FolderMan
  | [] => [x]
  | y :: ys =>
    if strLt (strToLower x.name) (strToLower y.name) then x :: y :: ys
    else y :: insertFolderSorted x ys

/-- Line 441: `sorted(db['source']['folders'], key=lambda x: x.lower())` —
the transfer iterates source folders in case-insensitive name order
(stable ascending sort). -/
def sortFolders (l : List FolderMan) : List FolderMan :=
  l.foldl (fun acc f => insertFolderSorted f acc) []

/-- One `--redirect` rule (lines 413-432).  A rule without `:` raises
`ValueError`, whose handler references an undefined name `e` and therefore
raises `NameError` (modelled as `Except.error`); a trailing-`*` rule
redirects every matching source folder, recording the pattern as unresolved
when nothing matches; a literal rule must name a known source folder.  The
`else` clause of the `try` statement then records the literal pair. -/
def parseRedirectRule (srcNames : List String)
    (acc : List (String × String) × List String) (rule : String) :
    Except Unit (List (String × String) × List String) :=
  match pySplit1 rule ':' with
  | none => Except.error ()
  | some (rsrc, rdst) =>
    let acc1 :=
      if rsrc.endsWith "*" then
        let ms := srcNames.filter (fun n => n.startsWith (rsrc.dropRight 1))
        if ms ≠ [] then (acc.1 ++ ms.map (fun n => (n, rdst)), acc.2)
        else (acc.1, acc.2 ++ [rsrc])
      else if !(srcNames.contains rsrc) then (acc.1, acc.2 ++ [rsrc])
      else acc
    Except.ok (acc1.1 ++ [(rsrc, rdst)], acc1.2)

/-- All `--redirect` rules in order (lines 410-432), returning the
redirection dictionary and the unresolved sources. -/
def parseRedirects (srcNames : List String) :
    List String → (List (String × String) × List String) →
    Except Unit (List (String × String) × List String)
  | [], acc => Except.ok acc
  | r :: rs, acc =>
    match parseRedirectRule srcNames acc r with
    | Except.error e => Except.error e
    | Except.ok acc2 => parseRedirects srcNames rs acc2

/-- Line 229: the destination quota is only read when the server has the
capability and `--ignore-quota` is off. -/
def destQuotaOf (a : Args) (w : World) : Option Quota :=
  if !a.ignore_quota then w.dstQuota else none

/-- Lines 221-222 and 232-234: printing a quota divides usage by limit, so a
zero reported limit raises `ZeroDivisionError`. -/
def quotaCrash (a : Args) (w : World) : Bool :=
  (match w.srcQuota with | some q => q.limit == 0 | none => false) ||
  (match destQuotaOf a w with | some q => q.limit == 0 | none => false)

/-- Lines 241-243: both quotas known and
`destination.limit - destination.usage < source.usage`. -/
def quotaInsufficient (a : Args) (w : World) : Bool :=
  match w.srcQuota, destQuotaOf a w with
  | some qs, some qd => decide ((qd.limit : Int) - (qd.usage : Int) < (qs.usage : Int))
  | _, _ => false

/-- The source-side hierarchy delimiter captured from the first LIST row
(lines 289-290), if any. -/
def sdelimOf (w : World) : Option Char := w.sourceFolders.head?.map (fun f => f.delim)

/-- The destination-side hierarchy delimiter captured from the first LIST
row (lines 351-352), if any. -/
def ddelimOf (w : World) : Option Char := w.destFolders.head?.map (fun f => f.delim)

/-- Case analysis on a fallible phase: continue on success, crash result
otherwise. -/
def exceptCase (e : Except Unit α) (f : α → RunRes) (r : RunRes) : RunRes :=
  match e with
  | Except.error _ => r
  | Except.ok v => f v

/-- Case analysis on the transfer loop's exit: clean completion, the caught
`KeyboardInterrupt`, or a crash. -/
def stepCase (p : TState × StepOut) : RunRes :=
  match p.2 with
  | StepOut.ok => ⟨Outcome.completed, p.1.stats, p.1.trace⟩
  | StepOut.ki => ⟨Outcome.finishedAfterAbort, p.1.stats, p.1.trace⟩
  | StepOut.crash => ⟨Outcome.crashed, p.1.stats, p.1.trace⟩

/-- The transfer phase (lines 440-622) as a run result: a clean pass
completes, a `KeyboardInterrupt` is caught at line 617 and still reaches
teardown, an uncaught exception crashes. -/
def runTransferPhase (a : Args) (w : World) (srcDb : List FolderMan) (st2 : Stats)
    (destDb : List DstMan) (redirs : List (String × String)) : RunRes :=
  stepCase (transferFolders a w (effectiveDeniedFlags a.denied_flags) (sdelimOf w)
    (ddelimOf w) destDb redirs ⟨st2, []⟩ (sortFolders srcDb))

/-- Everything after the two enumerations (lines 389-436 and onward): the
list-mode exit, then redirection parsing and validation, then transfer. -/
def runAfterEnums (a : Args) (w : World) (srcDb : List FolderMan) (st2 : Stats)
    (destDb : List DstMan) : RunRes :=
  if a.list then ⟨Outcome.exitListMode, st2, []⟩
  else
    exceptCase (parseRedirects (srcDb.map (fun f => f.name)) a.redirect ([], []))
      (fun pr =>
        if pr.2 ≠ [] then ⟨Outcome.abortRedirect, st2, []⟩
        else runTransferPhase a w srcDb st2 destDb pr.1)
      ⟨Outcome.crashed, st2, []⟩

/-- The destination enumeration joined with everything after it. -/
def runDestPhase (a : Args) (w : World) (st1 : Stats) (srcDb : List FolderMan) :
    RunRes :=
  exceptCase (enumDestAll a (sdelimOf w) st1 w.destFolders)
    (fun p => runAfterEnums a w srcDb p.1 p.2)
    ⟨Outcome.crashed, st1, []⟩

/-- The whole run (the script top to bottom): connect/login, quota check,
the two enumerations, list mode, redirection parsing and validation, then
the transfer phase. -/
def fullRun (a : Args) (w : World) : RunRes :=
  if !((w.srcConnOk && w.srcLoginOk) && (w.dstConnOk && w.dstLoginOk)) then
    ⟨Outcome.abortLogin, initStats, []⟩
  else if quotaCrash a w then ⟨Outcome.crashed, initStats, []⟩
  else if quotaInsufficient a w then ⟨Outcome.abortQuota, initStats, []⟩
  else
    runDestPhase a w (enumSource a initStats w.sourceFolders).1
      (enumSource a initStats w.sourceFolders).2

/-- Python `exit(arg)`: `exit()` passes `None`, and `sys.exit(None)` yields
process status 0. -/
def pyExitArg (arg : Option Nat) : Nat := arg.getD 0

/-- Process exit status of a run: every `exit()` call in the script passes
no argument (status 0); both normal ends fall off the script (status 0); an
uncaught exception makes the interpreter exit with status 1. -/
def runExitStatus (r : RunRes) : Nat :=
  match r.outcome with
  | Outcome.crashed => 1
  | Outcome.abortLogin => pyExitArg none
  | Outcome.abortQuota => pyExitArg none
  | Outcome.exitListMode => pyExitArg none
  | Outcome.abortRedirect => pyExitArg none
  | Outcome.finishedAfterAbort => 0
  | Outcome.completed => 0

/-- The per-reason skipped-mail total of the conservation claim. -/
def skippedMailsSum (s : Stats) : Nat :=
  s.skm_already_exists + s.skm_zero_size + s.skm_max_size +
  s.skm_max_line_length + s.skm_no_envelope

/-- The left-hand side of the conservation claim:
`copied_mails + Σ skipped_mails[*] + |errors|` (every error entry the
program records comes from an APPEND failure or a manifest-lookup miss). -/
def conservationLHS (s : Stats) : Nat :=
  s.copied_mails + skippedMailsSum s + s.errors.length

/-- A CREATE response that the transfer loop survives without dropping the
folder: success, or an error whose message contains `alreadyexists`. -/
def createOkOrAlready (c : CreateRes) : Prop :=
  match c with
  | CreateRes.ok => True
  | CreateRes.raiseErr msg => pyIn "alreadyexists" (strToLower msg) = true

/-- The part of the conservation sum the transfer loop grows by exactly one
per buffered message: copied mails, the four transfer-time skip reasons, and
the error entries. -/
def conservMu (s : Stats) : Nat :=
  s.copied_mails + s.skm_already_exists + s.skm_zero_size + s.skm_max_size +
  s.skm_max_line_length + s.errors.length

/-- Number of buffered messages of a folder that carried an ENVELOPE (these
are exactly the ones counted in `source_mails`). -/
def envBufLen (fm : FolderMan) : Nat :=
  (fm.buffer.filter (fun m => m.hasEnvelope)).length

/-- Number of buffered messages of a folder that lacked an ENVELOPE (these
are exactly the ones counted in `skipped_mails.no_envelope`). -/
def noenvBufLen (fm : FolderMan) : Nat :=
  (fm.buffer.filter (fun m => !m.hasEnvelope)).length

/-- Concrete run configuration: defaults plus `--max-mail-size 100`. -/
def argsBase : Args :=
  ⟨false, false, false, false, none, [], false, false, none, some 100, false, [],
   "", false, false⟩

/-- Concrete run configuration with no `--max-mail-size`. -/
def argsNoMax : Args := { argsBase with max_mail_size := none }

/-- Concrete run configuration with `--list`. -/
def argsListMode : Args := { argsBase with list := true }

/-- A message whose enumeration FETCH row has no ENVELOPE key. -/
def mNoEnv : SrcMsg := ⟨1, false, none, "id1", 7, [], [], "d1", AppendRes.resp "OK"⟩

/-- A well-formed message whose APPEND succeeds. -/
def mGood : SrcMsg :=
  ⟨2, true, some "hello", "id2", 5, ["\\Seen"], [3], "d2",
   AppendRes.resp "APPEND Completed."⟩

/-- Concrete world: both logins succeed, no quotas, one source folder
holding `mNoEnv` and `mGood`, one (empty) destination folder, CREATE always
succeeds. -/
def wBase : World :=
  ⟨true, true, true, true, none, none,
   [⟨"INBOX", '/', [], [mNoEnv, mGood]⟩],
   [⟨"Foo", '/', [], []⟩],
   fun _ => CreateRes.ok⟩

/-- `wBase` with every source message carrying an ENVELOPE. -/
def wAllEnv : World :=
  { wBase with sourceFolders := [⟨"INBOX", '/', [], [mGood]⟩] }

/-- `wBase` with a failing source login. -/
def wLoginFail : World := { wBase with srcLoginOk := false }

/-- `wAllEnv` with quotas that leave too little room on the destination:
source usage 10, destination 15 of 20 used (free = 5 < 10). -/
def wQuotaShort : World :=
  { wAllEnv with srcQuota := some ⟨10, 20⟩, dstQuota := some ⟨15, 20⟩ }

/-- Transfer-phase state whose enumeration counted one source mail. -/
def tsOne : TState := ⟨{ initStats with source_mails := 1 }, []⟩

/-- A concrete source-folder manifest dictionary for per-message tests:
UIDs 1-4 with sizes 1, 111, 5 and 0. -/
def mailsC : List (Nat × MsgMeta) :=
  [(1, ⟨1, "a", "i1"⟩), (2, ⟨111, "b", "i2"⟩), (3, ⟨5, "c", "i3"⟩), (4, ⟨0, "d", "i4"⟩)]

/-- Fetch data for UID 1 (size 1 in the manifest). -/
def msgU1 : SrcMsg := ⟨1, true, some "a", "i1", 1, [], [], "dt", AppendRes.resp "OK (Success)"⟩

/-- Fetch data for UID 2 (size 111 in the manifest, over the limit of
`argsBase`). -/
def msgU2 : SrcMsg := ⟨2, true, some "b", "i2", 111, [], [], "dt", AppendRes.resp "OK (Success)"⟩

/-- Fetch data for UID 3 (size 5 in the manifest), with flags to filter and
an APPEND response that matches no success token. -/
def msgU3 : SrcMsg :=
  ⟨3, true, some "c", "i3", 5, ["\\Seen", "\\Recent", "\\Flagged"], [], "dt",
   AppendRes.resp "BAD things"⟩

/-- Fetch data for UID 3 with a succeeding APPEND response. -/
def msgU3ok : SrcMsg := { msgU3 with appendRes := AppendRes.resp "APPEND completed." }

/-- Fetch data for a UID absent from `mailsC`. -/
def msgU9 : SrcMsg := ⟨9, true, some "z", "i9", 5, [], [], "dt", AppendRes.resp "OK (Success)"⟩

/-- C6: the claim says a user-supplied `--source-port`/`--destination-port`
is used, with the encryption-based default applying only when no port was
given.  In the code the guard `if 'source-port' not in args` tests a
hyphenated key against an `argparse` namespace whose keys all use
underscores, so it is always true and the port is unconditionally
re-computed from the encryption mode: a user-supplied port is ignored
(e.g. `--source-port 1234` with implicit-TLS encryption connects to 993). -/
theorem C6_port_always_overridden :
    (∀ p enc, effectiveSourcePort (some p) enc = default_port enc) ∧
    (∀ p enc, effectiveDestinationPort (some p) enc = default_port enc) ∧
    effectiveSourcePort (some 1234) "ssl" = 993 ∧
    effectiveDestinationPort (some 1234) "ssl" = 993 := by
  refine ⟨fun p enc => ?_, fun p enc => ?_, by decide, by decide⟩
  · show (if !(argNamespaceKeys.contains "source-port") then default_port enc
          else p) = default_port enc
    rw [if_pos (by decide)]
  · show (if !(argNamespaceKeys.contains "destination-port") then default_port enc
          else p) = default_port enc
    rw [if_pos (by decide)]

/-- C7 counterexample: a run aborted by a login failure ends through the
bare `exit()` at line 212, whose process status is 0, not non-zero. -/
theorem C7_counterexample :
    (fullRun argsBase wLoginFail).outcome = Outcome.abortLogin ∧
    runExitStatus (fullRun argsBase wLoginFail) = 0 := by decide

/-- C7 amended: every abort path (login failure, insufficient quota, list
mode, unresolved redirection) calls `exit()` with no argument and therefore
terminates with status 0, the same status as a completed run; only an
uncaught exception produces a non-zero status. -/
theorem C7_amended (a : Args) (w : World)
    (h : (fullRun a w).outcome ≠ Outcome.crashed) :
    runExitStatus (fullRun a w) = 0 := by
  cases ho : (fullRun a w).outcome
  case crashed => exact absurd ho h
  all_goals simp [runExitStatus, ho, pyExitArg]

/-- C7 witness: the amended statement applied to the concrete
login-failure run. -/
theorem C7_witness : runExitStatus (fullRun argsBase wLoginFail) = 0 :=
  C7_amended argsBase wLoginFail (by decide)

/-- C5: with no `--max-mail-size`, the ladder's comparison
`size > args.max_mail_size` compares an `int` with `None` and raises
`TypeError` in Python 3, crashing the run on the first non-zero-sized
message — the claim (and the option's own help text) describe the intended
behaviour, which the code only delivers when a limit is supplied: then a
message is skipped under `max_size` exactly when its manifest size exceeds
the limit. -/
theorem C5_max_mail_size :
    (transferMsg argsNoMax [] mailsC "F" false [] tsOne msgU1).2 = StepOut.crash ∧
    (transferMsg argsNoMax [] mailsC "F" false [] tsOne msgU1).1 = tsOne ∧
    (transferMsg argsBase [] mailsC "F" false [] tsOne msgU2).1.stats.skm_max_size
      = tsOne.stats.skm_max_size + 1 ∧
    (transferMsg argsBase [] mailsC "F" false [] tsOne msgU2).2 = StepOut.ok ∧
    (transferMsg argsBase [] mailsC "F" false [] tsOne msgU1).1.stats.skm_max_size
      = tsOne.stats.skm_max_size ∧
    (transferMsg argsBase [] mailsC "F" false [] tsOne msgU1).1.stats.copied_mails
      = tsOne.stats.copied_mails + 1 := by decide

/-- C3 counterexample: on a manifest-lookup miss (UID 9 is not in the
manifest `mailsC`) the handler records the error and `continue`s before the
`try/finally` that increments `processed`, so the message is NOT counted as
processed, contradicting the claim. -/
theorem C3_counterexample :
    (transferMsg argsBase [] mailsC "F" false [] tsOne msgU9).1.stats.processed
      = tsOne.stats.processed ∧
    (transferMsg argsBase [] mailsC "F" false [] tsOne msgU9).1.stats.errors.length
      = tsOne.stats.errors.length + 1 := by decide

/-- C3 amended: in a non-dry run with at least one enumerated source mail,
`processed` is incremented exactly once for every message that is copied,
skipped by a skip-ladder rule, or fails APPEND; on a manifest-lookup
failure, however, an error entry with `(unknown)` placeholder fields is
recorded and `processed` is NOT incremented (the `continue` at line 541
bypasses the `finally` clause of the inner `try`). -/
theorem C3_amended (a : Args) (denied : List String) (mails : List (Nat × MsgMeta))
    (dfName : String) (dfExists : Bool) (destDb : List DstMan) (ts : TState) (m : SrcMsg)
    (hdry : a.dry_run = false) (hsm : ¬ ts.stats.source_mails = 0) :
    (pyDictFind mails m.uid = none →
      (transferMsg a denied mails dfName dfExists destDb ts m).1.stats.processed
        = ts.stats.processed ∧
      (transferMsg a denied mails dfName dfExists destDb ts m).1.stats.errors
        = ts.stats.errors ++ [unknownErrRecord m.uid dfName]) ∧
    (∀ meta, pyDictFind mails m.uid = some meta →
      (meta.size = 0 ∨ a.max_mail_size ≠ none) →
      (transferMsg a denied mails dfName dfExists destDb ts m).1.stats.processed
        = ts.stats.processed + 1) := by
  constructor
  · intro hfind
    simp [transferMsg, if_neg hsm, hfind]
  · intro meta hfind hok
    simp only [transferMsg, if_neg hsm, hfind]
    by_cases hz : meta.size = 0
    · rw [if_pos hz]
    · rw [if_neg hz]
      rcases hmx : a.max_mail_size with _ | maxSize
      · rcases hok with h0 | hnn
        · exact absurd h0 hz
        · exact absurd hmx hnn
      · simp only [hdry, Bool.false_eq_true, if_false]
        split
        · rfl
        · split
          · rfl
          · split
            · rfl
            · split
              · split <;> rfl
              · rfl

/-- C3 witness: the amended statement applied to a concrete message, UID 1
of `mailsC`, which is copied and counted as processed once. -/
theorem C3_witness :
    (transferMsg argsBase [] mailsC "F" false [] tsOne msgU1).1.stats.processed
      = tsOne.stats.processed + 1 :=
  (C3_amended argsBase [] mailsC "F" false [] tsOne msgU1 rfl (by decide)).2
    ⟨1, "a", "i1"⟩ (by decide) (Or.inr (by decide))

/-- C9: for a message that reaches the APPEND step, `copied_mails` is
incremented exactly when the lowercased server response contains
`append completed` or `(success)`; any other response raises
`IMAPClientError('Unknown success message: ...')`, which is recorded as a
structured error entry `{size, subject, exception, folder, date, id}`, and
the loop continues unless `--abort-on-error` raises the interrupt. -/
theorem C9_append_success_detection (a : Args) (denied : List String)
    (mails : List (Nat × MsgMeta)) (dfName : String) (dfExists : Bool)
    (destDb : List DstMan) (ts : TState) (m : SrcMsg) (meta : MsgMeta)
    (maxSize : Nat) (r : String)
    (hsm : ¬ ts.stats.source_mails = 0)
    (hfind : pyDictFind mails m.uid = some meta)
    (hsz : ¬ meta.size = 0)
    (hmax : a.max_mail_size = some maxSize)
    (hle : ¬ meta.size > maxSize)
    (hdup : ¬ (a.incremental && dfExists &&
        (destDupIds destDb dfName).contains (some meta.msgId)) = true)
    (hdry : a.dry_run = false)
    (hline : lineLengthSkip a m = false)
    (hresp : m.appendRes = AppendRes.resp r) :
    ((transferMsg a denied mails dfName dfExists destDb ts m).1.stats.copied_mails
        = ts.stats.copied_mails + 1 ↔ appendSuccess r = true) ∧
    (transferMsg a denied mails dfName dfExists destDb ts m).1.trace
        = ts.trace ++ [Cmd.append dfName (appendFlagFilter m.flags denied)] ∧
    (appendSuccess r = false →
      (transferMsg a denied mails dfName dfExists destDb ts m).1.stats.errors
        = ts.stats.errors ++
          [appendErrRecord meta m dfName
            ("IMAPClientError: Unknown success message: " ++ r)] ∧
      (transferMsg a denied mails dfName dfExists destDb ts m).2
        = (if a.abort_on_error then StepOut.ki else StepOut.ok)) ∧
    (appendSuccess r = true →
      (transferMsg a denied mails dfName dfExists destDb ts m).2 = StepOut.ok ∧
      (transferMsg a denied mails dfName dfExists destDb ts m).1.stats.errors
        = ts.stats.errors) := by
  simp only [transferMsg, if_neg hsm, hfind, if_neg hsz, hmax, if_neg hle,
    if_neg hdup, hdry, Bool.false_eq_true, if_false, hline, hresp]
  by_cases hs : appendSuccess r = true
  · simp [hs]
  · simp only [hs, Bool.not_eq_true] at *
    simp [hs]

/-- C9 witness: the detection theorem applied to UID 3 of `mailsC` with the
non-matching response `BAD things`: no copy, one structured error entry. -/
theorem C9_witness :
    (transferMsg argsBase [] mailsC "F" false [] tsOne msgU3).1.stats.errors
      = tsOne.stats.errors ++
        [appendErrRecord ⟨5, "c", "i3"⟩ msgU3 "F"
          ("IMAPClientError: Unknown success message: " ++ "BAD things")] :=
  (((C9_append_success_detection argsBase [] mailsC "F" false [] tsOne msgU3
      ⟨5, "c", "i3"⟩ 100 "BAD things" (by decide) (by decide) (by decide) rfl
      (by decide) (by decide) rfl (by decide) rfl).2).2).1 (by decide) |>.1

/-- The special-use linking loop (lines 452-458) started from a default
name equals the `Option`-valued spec fold with the default applied at the
end. -/
theorem specialFold_getD (destDb : List DstMan) (flags : List String)
    (init : String) (acc : Option String) :
    List.foldl (fun acc2 fl =>
        if SPECIAL_FOLDER_FLAGS.contains fl then
          match destDb.find? (fun d => d.flags.contains fl) with
          | some d => d.name
          | none => acc2
        else acc2) (acc.getD init) flags
      = (List.foldl (fun acc2 fl =>
          if SPECIAL_FOLDER_FLAGS.contains fl then
            match destDb.find? (fun d => d.flags.contains fl) with
            | some d => some d.name
            | none => acc2
          else acc2) acc flags).getD init := by
  induction flags generalizing acc with
  | nil => rfl
  | cons fl fls ih =>
    simp only [List.foldl_cons]
    by_cases hs : SPECIAL_FOLDER_FLAGS.contains fl = true
    · rw [if_pos hs, if_pos hs]
      cases hf : destDb.find? (fun d => d.flags.contains fl) with
      | some d => exact ih (some d.name)
      | none => exact ih acc
    · rw [if_neg hs, if_neg hs]
      exact ih acc

/-- C2: the destination folder name computed by the transfer loop
(lines 441-462) equals the spec's three-tier description: an explicit
`SRC:DST` redirection wins; otherwise a special-use link (when
`--ignore-folder-flags` is off and a destination folder shares one of the
five special flags) wins; otherwise the delimiter rewrite, prefixed with
the destination root exactly when a root is configured and either
`--destination-root-merge` is off or the rewritten name neither equals the
root nor starts with root-plus-delimiter. -/
theorem C2_folder_mapping_precedence (a : Args) (sdelim ddelim : Char)
    (destDb : List DstMan) (redirs : List (String × String)) (sfName : String)
    (sfFlags : List String) :
    computeDfName a sdelim ddelim destDb redirs sfName sfFlags
      = specDfName a sdelim ddelim destDb redirs sfName sfFlags := by
  unfold computeDfName specDfName specSpecialLink specRootedRewrite
  cases hred : strDictGet redirs sfName with
  | some d => rfl
  | none =>
    by_cases hig : a.ignore_folder_flags = false
    · simp only [if_pos hig]
      have h := specialFold_getD destDb sfFlags
        (if a.destination_root ≠ "" then
          if a.destination_root_merge = false ∨
              ((pyReplace sfName sdelim ddelim).startsWith
                (a.destination_root ++ String.mk [ddelim]) = false ∧
               pyReplace sfName sdelim ddelim ≠ a.destination_root) then
            a.destination_root ++ String.mk [ddelim] ++ pyReplace sfName sdelim ddelim
          else pyReplace sfName sdelim ddelim
        else pyReplace sfName sdelim ddelim) none
      simp only [Option.getD_none] at h
      rw [h]
      cases List.foldl (fun acc2 fl =>
          if SPECIAL_FOLDER_FLAGS.contains fl then
            match destDb.find? (fun d => d.flags.contains fl) with
            | some d => some d.name
            | none => acc2
          else acc2) none sfFlags with
      | some linked => rfl
      | none => rfl
    · simp only [if_neg hig]

/-- Two strings with the same character data are equal. -/
theorem strEq_of_data (a b : String) (h : a.data = b.data) : a = b := by
  cases a
  cases b
  cases h
  rfl

/-- `Char.ofNat` of an ASCII lowercase code point reads back unchanged. -/
theorem charOfNat_lower_toNat (n : Nat) (h1 : 97 ≤ n) (h2 : n ≤ 122) :
    (Char.ofNat n).toNat = n := by
  have hv : n.isValidChar := Or.inl (by omega)
  simp only [Char.ofNat, dif_pos hv]
  simp [Char.ofNatAux, Char.toNat, UInt32.toNat, BitVec.toNat_ofNatLt]

/-- The output of ASCII lowercasing never lands in the uppercase range. -/
theorem charToLower_not_upper (c : Char) :
    ¬((Char.toLower c).toNat ≥ 65 ∧ (Char.toLower c).toNat ≤ 90) := by
  simp only [Char.toLower]
  split
  · next h =>
    have ht : (Char.ofNat (c.toNat + 32)).toNat = c.toNat + 32 :=
      charOfNat_lower_toNat (c.toNat + 32) (by omega) (by omega)
    omega
  · next h => exact h

/-- ASCII lowercasing is idempotent. -/
theorem charToLower_idem (c : Char) :
    Char.toLower (Char.toLower c) = Char.toLower c := by
  conv_lhs => rw [show Char.toLower (Char.toLower c)
    = if (Char.toLower c).toNat ≥ 65 ∧ (Char.toLower c).toNat ≤ 90
      then Char.ofNat ((Char.toLower c).toNat + 32) else Char.toLower c from rfl]
  rw [if_neg (charToLower_not_upper c)]

/-- Lowercasing maps the separator `,` to itself and nothing else to it. -/
theorem charToLower_comma (c : Char) : (Char.toLower c = ',') ↔ (c = ',') := by
  constructor
  · intro h
    simp only [Char.toLower] at h
    by_cases hr : 65 ≤ c.toNat ∧ c.toNat ≤ 90
    · rw [if_pos hr] at h
      have ht : (Char.ofNat (c.toNat + 32)).toNat = c.toNat + 32 :=
        charOfNat_lower_toNat (c.toNat + 32) (by omega) (by omega)
      have h44 : (',' : Char).toNat = 44 := by decide
      rw [h, h44] at ht
      omega
    · rwa [if_neg hr] at h
  · intro h
    rw [h]
    decide

/-- `splitChar` always yields at least one piece. -/
theorem splitChar_ne_nil (sep : Char) (l : List Char) : splitChar sep l ≠ [] := by
  cases l with
  | nil => simp [splitChar]
  | cons c cs =>
    simp only [splitChar]
    split
    · simp
    · split <;> simp

/-- Splitting on `,` commutes with lowercasing. -/
theorem splitChar_comma_lower (l : List Char) :
    splitChar ',' (l.map Char.toLower)
      = (splitChar ',' l).map (List.map Char.toLower) := by
  induction l with
  | nil => rfl
  | cons c cs ih =>
    simp only [List.map_cons, splitChar, ih]
    cases h : splitChar ',' cs with
    | nil => exact absurd h (splitChar_ne_nil ',' cs)
    | cons p ps =>
      simp only [List.map_cons]
      by_cases hc : c = ','
      · rw [if_pos ((charToLower_comma c).mpr hc), if_pos hc]
        simp
      · rw [if_neg (fun hh => hc ((charToLower_comma c).mp hh)), if_neg hc]
        simp

/-- `pySplit` on `,` commutes with `strToLower`. -/
theorem pySplit_strToLower (s : String) :
    pySplit (strToLower s) ',' = (pySplit s ',').map strToLower := by
  unfold pySplit
  rw [show (strToLower s).data = s.data.map Char.toLower from rfl,
    splitChar_comma_lower, List.map_map, List.map_map]
  rfl

/-- Every element of the effective denied-flags set is already lowercase
(fixed by `strToLower`): the base element `\recent` is a lowercase literal
and each added flag is a piece of the lowercased argument. -/
theorem effectiveDeniedFlags_lowered (deniedArg : Option String) (d : String)
    (hd : d ∈ effectiveDeniedFlags deniedArg) : strToLower d = d := by
  have hrecent : strToLower "\\recent" = "\\recent" := by decide
  match deniedArg with
  | none =>
    simp only [effectiveDeniedFlags, List.mem_singleton] at hd
    rw [hd]
    exact hrecent
  | some s =>
    by_cases hs : s = ""
    · simp only [effectiveDeniedFlags, if_pos hs, List.mem_singleton] at hd
      rw [hd]
      exact hrecent
    · simp only [effectiveDeniedFlags, if_neg hs, List.mem_cons] at hd
      rcases hd with hd | hd
      · rw [hd]
        exact hrecent
      · rcases List.mem_map.mp hd with ⟨t, ht, rfl⟩
        rw [pySplit_strToLower] at ht
        rcases List.mem_map.mp ht with ⟨u, _, rfl⟩
        apply strEq_of_data
        show List.map Char.toLower (("\\" ++ strToLower u).data)
          = ("\\" ++ strToLower u).data
        rw [String.data_append, List.map_append]
        have h1 : List.map Char.toLower ("\\".data) = "\\".data := by decide
        have h2 : List.map Char.toLower ((strToLower u).data) = (strToLower u).data := by
          show List.map Char.toLower (u.data.map Char.toLower)
            = u.data.map Char.toLower
          rw [List.map_map]
          exact List.map_congr_left (fun c _ => charToLower_idem c)
        rw [h1, h2]

/-- C4: the effective denied-flags set is `{\recent}` plus, when
`--denied-flags` is supplied, one `\`-prefixed lowercased entry per comma
token; and the flag set passed to APPEND keeps exactly the source flags
whose lowercase form is not in that set, so it is disjoint from the denied
set under case-insensitive comparison. -/
theorem C4_denied_flags_filter_disjoint (s : String) (hs : s ≠ "")
    (flags : List String) :
    effectiveDeniedFlags (some s)
      = "\\recent" :: (pySplit s ',').map (fun t => "\\" ++ strToLower t) ∧
    appendFlagFilter flags (effectiveDeniedFlags (some s))
      = flags.filter
          (fun fl => !((effectiveDeniedFlags (some s)).contains (strToLower fl))) ∧
    (∀ (deniedArg : Option String) (f d : String),
      f ∈ appendFlagFilter flags (effectiveDeniedFlags deniedArg) →
      d ∈ effectiveDeniedFlags deniedArg →
      strToLower f ≠ strToLower d) := by
  refine ⟨?_, rfl, ?_⟩
  · simp only [effectiveDeniedFlags, if_neg hs]
    rw [pySplit_strToLower, List.map_map]
    rfl
  · intro deniedArg f d hf hd heq
    have hfl := List.mem_filter.mp hf
    have hnc : (effectiveDeniedFlags deniedArg).contains (strToLower f) = false := by
      simpa using hfl.2
    have hdl : strToLower d = d := effectiveDeniedFlags_lowered deniedArg d hd
    rw [heq, hdl] at hnc
    have helem : (effectiveDeniedFlags deniedArg).contains d = true := by
      simp only [List.contains, List.elem_iff]
      exact hd
    rw [helem] at hnc
    simp at hnc

/-- C4 witness: with `--denied-flags Seen,Recent`, the effective set is the
lowercased backslash-prefixed token list, and the kept flag `\Flagged` is
case-insensitively different from the denied `\recent`. -/
theorem C4_witness :
    effectiveDeniedFlags (some "Seen,Recent")
      = "\\recent" :: (pySplit "Seen,Recent" ',').map (fun t => "\\" ++ strToLower t) ∧
    strToLower "\\Flagged" ≠ strToLower "\\recent" := by
  have h := C4_denied_flags_filter_disjoint "Seen,Recent" (by decide)
    ["\\Seen", "\\Flagged", "\\Recent"]
  exact ⟨h.1, h.2.2 (some "Seen,Recent") "\\Flagged" "\\recent" (by decide) (by decide)⟩

/-- C8: when both endpoints report QUOTA with a usable (non-zero) limit,
the free destination space is below the source usage and `--ignore-quota`
is off, the run stops at the quota check (line 251) with the initial
counters and an empty command trace: no CREATE or APPEND is ever issued. -/
theorem C8_quota_short_circuit (a : Args) (w : World) (qs qd : Quota)
    (hlog : ((w.srcConnOk && w.srcLoginOk) && (w.dstConnOk && w.dstLoginOk)) = true)
    (hsq : w.srcQuota = some qs) (hsl : qs.limit ≠ 0)
    (hig : a.ignore_quota = false)
    (hdq : w.dstQuota = some qd) (hdl : qd.limit ≠ 0)
    (hfree : (qd.limit : Int) - (qd.usage : Int) < (qs.usage : Int)) :
    fullRun a w = ⟨Outcome.abortQuota, initStats, []⟩ := by
  have hqc : quotaCrash a w = false := by
    simp [quotaCrash, destQuotaOf, hsq, hdq, hig, hsl, hdl]
  have hqi : quotaInsufficient a w = true := by
    simp only [quotaInsufficient, destQuotaOf, hig, Bool.not_false, if_pos, hsq, hdq]
    exact decide_eq_true hfree
  unfold fullRun
  rw [hlog]
  simp [hqc, hqi]

/-- C8 witness: the short-circuit applied to the concrete world with source
usage 10 against destination free space 5. -/
theorem C8_witness : fullRun argsBase wQuotaShort = ⟨Outcome.abortQuota, initStats, []⟩ :=
  C8_quota_short_circuit argsBase wQuotaShort ⟨10, 20⟩ ⟨15, 20⟩ rfl rfl
    (by decide) rfl rfl (by decide) (by decide)

/-- With no `--source-mailbox` filter, destination enumeration of one
folder never raises. -/
theorem enumDestFolder_no_filter (a : Args) (hmb : a.source_mailbox = [])
    (sdelim : Option Char) (ddelim : Char) (st : Stats) (db : List DstMan)
    (f : DstFolderW) :
    ∃ r, enumDestFolder a sdelim ddelim st db f = Except.ok r := by
  have hcond : ¬ (a.source_mailbox ≠ []) := by simp [hmb]
  simp only [enumDestFolder, if_neg hcond]
  rcases enumDstMsgs a st [] 0 f.msgs with ⟨st2, mails, fsize⟩
  exact ⟨_, rfl⟩

/-- With no `--source-mailbox` filter, destination enumeration never
raises. -/
theorem enumDest_no_filter (a : Args) (hmb : a.source_mailbox = [])
    (sdelim : Option Char) (ddelim : Char) :
    ∀ (folders : List DstFolderW) (st : Stats) (db : List DstMan),
    ∃ r, enumDest a sdelim ddelim st db folders = Except.ok r := by
  intro folders
  induction folders with
  | nil => exact fun st db => ⟨(st, db), rfl⟩
  | cons f fs ih =>
    intro st db
    rcases enumDestFolder_no_filter a hmb sdelim ddelim st db f with ⟨⟨st2, db2⟩, hf⟩
    rcases ih st2 db2 with ⟨r, hr⟩
    exact ⟨r, by simp only [enumDest, hf, hr]⟩

/-- With no `--source-mailbox` filter, the whole destination enumeration
phase never raises. -/
theorem enumDestAll_no_filter (a : Args) (hmb : a.source_mailbox = [])
    (sdelim : Option Char) (st : Stats) (folders : List DstFolderW) :
    ∃ r, enumDestAll a sdelim st folders = Except.ok r := by
  cases folders with
  | nil => exact ⟨(st, []), rfl⟩
  | cons f fs => exact enumDest_no_filter a hmb sdelim f.delim (f :: fs) st []

/-- In list mode the run can only end at login, at the quota stage, or at
the list-mode `exit()`, always with an empty command trace. -/
theorem fullRun_list_shape (a : Args) (w : World) (hlist : a.list = true) :
    (fullRun a w).trace = [] ∧
    ((fullRun a w).outcome = Outcome.abortLogin ∨
     (fullRun a w).outcome = Outcome.crashed ∨
     (fullRun a w).outcome = Outcome.abortQuota ∨
     (fullRun a w).outcome = Outcome.exitListMode) := by
  unfold fullRun
  by_cases h1 : (!(w.srcConnOk && w.srcLoginOk && (w.dstConnOk && w.dstLoginOk))) = true
  · rw [if_pos h1]
    exact ⟨rfl, Or.inl rfl⟩
  · rw [if_neg h1]
    by_cases h2 : quotaCrash a w = true
    · rw [if_pos h2]
      exact ⟨rfl, Or.inr (Or.inl rfl)⟩
    · rw [if_neg h2]
      by_cases h3 : quotaInsufficient a w = true
      · rw [if_pos h3]
        exact ⟨rfl, Or.inr (Or.inr (Or.inl rfl))⟩
      · rw [if_neg h3]
        unfold runDestPhase
        cases enumDestAll a (sdelimOf w) (enumSource a initStats w.sourceFolders).1
            w.destFolders with
        | error e => exact ⟨rfl, Or.inr (Or.inl rfl)⟩
        | ok v =>
          rcases v with ⟨st2, destDb⟩
          unfold runAfterEnums
          rw [hlist]
          exact ⟨rfl, Or.inr (Or.inr (Or.inr rfl))⟩

/-- C10: with `--list`, the process exits right after printing the folder
listings (line 406), before redirection validation and before any transfer:
the command trace is always empty, the unresolved-redirection abort can
never be the outcome, and whenever login succeeds, neither side reports
QUOTA and no `--source-mailbox` filter is active, the run ends exactly at
the list-mode exit. -/
theorem C10_list_mode_early_exit (a : Args) (w : World) (hlist : a.list = true) :
    (fullRun a w).trace = [] ∧
    (fullRun a w).outcome ≠ Outcome.abortRedirect ∧
    (((w.srcConnOk && w.srcLoginOk) && (w.dstConnOk && w.dstLoginOk)) = true →
      w.srcQuota = none → w.dstQuota = none → a.source_mailbox = [] →
      (fullRun a w).outcome = Outcome.exitListMode) := by
  refine ⟨(fullRun_list_shape a w hlist).1, ?_, ?_⟩
  · rcases (fullRun_list_shape a w hlist).2 with h | h | h | h <;> simp [h]
  · intro hlog hsq hdq hmb
    have hqc : quotaCrash a w = false := by simp [quotaCrash, destQuotaOf, hsq, hdq]
    have hqi : quotaInsufficient a w = false := by
      simp [quotaInsufficient, destQuotaOf, hsq]
    unfold fullRun
    rw [hlog]
    simp only [Bool.not_true, Bool.false_eq_true, if_false, hqc, hqi]
    unfold runDestPhase
    rcases enumDestAll_no_filter a hmb (sdelimOf w)
        (enumSource a initStats w.sourceFolders).1 w.destFolders with ⟨⟨st2, destDb⟩, h2⟩
    rw [h2]
    unfold runAfterEnums
    rw [hlist]
    rfl

/-- C10 witness: the list-mode theorem applied to `wBase` with `--list`. -/
theorem C10_witness :
    (fullRun argsListMode wBase).trace = [] ∧
    (fullRun argsListMode wBase).outcome = Outcome.exitListMode := by
  have h := C10_list_mode_early_exit argsListMode wBase rfl
  exact ⟨h.1, h.2.2 rfl rfl rfl rfl⟩

/-- Every message whose transfer step runs to completion (no crash, no
interrupt) adds exactly one to the conservation measure — whether it was a
manifest miss (error entry), a skip, a successful copy or a failed
APPEND — and leaves `source_mails` and `no_envelope` untouched. -/
theorem transferMsg_ok_mu (a : Args) (denied : List String)
    (mails : List (Nat × MsgMeta)) (dfName : String) (dfExists : Bool)
    (destDb : List DstMan) (ts ts2 : TState) (m : SrcMsg)
    (hdry : a.dry_run = false)
    (h : transferMsg a denied mails dfName dfExists destDb ts m = (ts2, StepOut.ok)) :
    conservMu ts2.stats = conservMu ts.stats + 1 ∧
    ts2.stats.source_mails = ts.stats.source_mails ∧
    ts2.stats.skm_no_envelope = ts.stats.skm_no_envelope := by
  by_cases hsm : ts.stats.source_mails = 0
  · simp [transferMsg, if_pos hsm] at h
  · simp only [transferMsg, if_neg hsm] at h
    split at h
    · cases h
      simp [conservMu]
      all_goals omega
    · split at h
      · cases h
        simp [conservMu]
        all_goals omega
      · split at h
        · simp at h
        · split at h
          · cases h
            simp [conservMu]
            all_goals omega
          · split at h
            · cases h
              simp [conservMu]
              all_goals omega
            · split at h
              · rw [hdry] at *
                simp_all
              · split at h
                · cases h
                  simp [conservMu]
                  all_goals omega
                · split at h
                  · split at h
                    · cases h
                      simp [conservMu]
                      all_goals omega
                    · by_cases habort : a.abort_on_error = true
                      · simp [habort] at h
                      · simp only [habort, Bool.false_eq_true, if_false] at h
                        cases h
                        simp [conservMu]
                        all_goals omega
                  · by_cases habort : a.abort_on_error = true
                    · simp [habort] at h
                    · simp only [habort, Bool.false_eq_true, if_false] at h
                      cases h
                      simp [conservMu]
                      all_goals omega

/-- A buffer that the loop finishes cleanly adds its length to the
conservation measure. -/
theorem transferMsgs_ok_mu (a : Args) (denied : List String)
    (mails : List (Nat × MsgMeta)) (dfName : String) (dfExists : Bool)
    (destDb : List DstMan) (hdry : a.dry_run = false) :
    ∀ (msgs : List SrcMsg) (ts ts2 : TState),
    transferMsgs a denied mails dfName dfExists destDb ts msgs = (ts2, StepOut.ok) →
    conservMu ts2.stats = conservMu ts.stats + msgs.length ∧
    ts2.stats.source_mails = ts.stats.source_mails ∧
    ts2.stats.skm_no_envelope = ts.stats.skm_no_envelope := by
  intro msgs
  induction msgs with
  | nil =>
    intro ts ts2 h
    cases h
    simp
  | cons m ms ih =>
    intro ts ts2 h
    simp only [transferMsgs] at h
    split at h
    next ts3 heq =>
      obtain ⟨h1, h2, h3⟩ :=
        transferMsg_ok_mu a denied mails dfName dfExists destDb ts ts3 m hdry heq
      obtain ⟨g1, g2, g3⟩ := ih ts3 ts2 h
      refine ⟨?_, by omega, by omega⟩
      simp only [List.length_cons]
      omega
    next ts3 e hne heq =>
      injection h with h1 h2
      exact absurd h2 hne

/-- A folder that the transfer loop finishes cleanly adds its buffer length
to the conservation measure, provided CREATE never fails with a
non-already-exists error and an empty manifest implies an empty buffer. -/
theorem transferFolder_ok_mu (a : Args) (w : World) (denied : List String)
    (sdelim ddelim : Option Char) (destDb : List DstMan)
    (redirs : List (String × String)) (ts ts2 : TState) (sf : FolderMan)
    (hdry : a.dry_run = false)
    (hcr : ∀ n, createOkOrAlready (w.createRes n))
    (hmb : sf.mails = [] → sf.buffer = [])
    (h : transferFolder a w denied sdelim ddelim destDb redirs ts sf
      = (ts2, StepOut.ok)) :
    conservMu ts2.stats = conservMu ts.stats + sf.buffer.length ∧
    ts2.stats.source_mails = ts.stats.source_mails ∧
    ts2.stats.skm_no_envelope = ts.stats.skm_no_envelope := by
  have hfb : ∀ (dfn : String) (dfe : Bool) (ts' : TState),
      folderBody a denied destDb dfn dfe sf ts'
        = transferMsgs a denied sf.mails dfn dfe destDb ts' sf.buffer := by
    intro dfn dfe ts'
    simp [folderBody, hdry]
  cases sdelim with
  | none => simp [transferFolder] at h
  | some sd =>
    cases ddelim with
    | none => simp [transferFolder] at h
    | some dd =>
      simp only [transferFolder, hfb] at h
      split at h
      · obtain ⟨h1, h2, h3⟩ := transferMsgs_ok_mu a denied sf.mails _ _ destDb hdry
          sf.buffer _ ts2 h
        refine ⟨?_, by simpa using h2, by simpa using h3⟩
        simp only [conservMu] at h1 ⊢
        omega
      · split at h
        · simp_all
        · split at h
          next hcond =>
            cases h
            have hbuf : sf.buffer = [] :=
              hmb (List.isEmpty_iff.mp (Bool.and_elim_right hcond))
            simp [conservMu, hbuf]
          next hcond =>
            split at h
            next heq =>
              obtain ⟨h1, h2, h3⟩ := transferMsgs_ok_mu a denied sf.mails _ _ destDb hdry
                sf.buffer _ ts2 h
              refine ⟨?_, by simpa using h2, by simpa using h3⟩
              simp only [conservMu] at h1 ⊢
              omega
            next msg heq =>
              split at h
              next halready =>
                obtain ⟨h1, h2, h3⟩ := transferMsgs_ok_mu a denied sf.mails _ _ destDb hdry
                  sf.buffer _ ts2 h
                refine ⟨?_, by simpa using h2, by simpa using h3⟩
                simp only [conservMu] at h1 ⊢
                omega
              next halready =>
                exfalso
                have hc := hcr (computeDfName a sd dd destDb redirs sf.name sf.flags)
                rw [heq] at hc
                exact halready hc

/-- A folder list that the transfer loop finishes cleanly adds the total
buffered-message count to the conservation measure. -/
theorem transferFolders_ok_mu (a : Args) (w : World) (denied : List String)
    (sdelim ddelim : Option Char) (destDb : List DstMan)
    (redirs : List (String × String))
    (hdry : a.dry_run = false)
    (hcr : ∀ n, createOkOrAlready (w.createRes n)) :
    ∀ (sfs : List FolderMan) (ts ts2 : TState),
    (∀ sf ∈ sfs, sf.mails = [] → sf.buffer = []) →
    transferFolders a w denied sdelim ddelim destDb redirs ts sfs
      = (ts2, StepOut.ok) →
    conservMu ts2.stats
      = conservMu ts.stats + (sfs.map (fun sf => sf.buffer.length)).sum ∧
    ts2.stats.source_mails = ts.stats.source_mails ∧
    ts2.stats.skm_no_envelope = ts.stats.skm_no_envelope := by
  intro sfs
  induction sfs with
  | nil =>
    intro ts ts2 _ h
    cases h
    simp
  | cons sf sfs ih =>
    intro ts ts2 hmb h
    simp only [transferFolders] at h
    split at h
    next ts3 heq =>
      obtain ⟨h1, h2, h3⟩ := transferFolder_ok_mu a w denied sdelim ddelim destDb
        redirs ts ts3 sf hdry hcr (hmb sf (List.mem_cons_self sf sfs)) heq
      obtain ⟨g1, g2, g3⟩ := ih ts3 ts2
        (fun f hf => hmb f (List.mem_cons_of_mem sf hf)) h
      refine ⟨?_, by omega, by omega⟩
      simp only [List.map_cons, List.sum_cons]
      omega
    next ts3 e hne heq =>
      injection h with h1 h2
      exact absurd h2 hne

/-- Dictionary insertion never produces an empty dictionary. -/
theorem pyDictInsert_ne_nil (l : List (Nat × α)) (k : Nat) (v : α) :
    pyDictInsert l k v ≠ [] := by
  cases l with
  | nil => simp [pyDictInsert]
  | cons p t =>
    simp only [pyDictInsert]
    split <;> simp

/-- Source-folder message enumeration: `source_mails` grows by the number
of rows with an ENVELOPE, `no_envelope` by the number without one, the
conservation measure is untouched, and an empty resulting manifest means
both the initial manifest and the ENVELOPE-carrying rows were empty. -/
theorem enumSrcMsgs_spec :
    ∀ (msgs : List SrcMsg) (st : Stats) (mails : List (Nat × MsgMeta)) (fsize : Nat),
    (enumSrcMsgs st mails fsize msgs).1.source_mails
      = st.source_mails + (msgs.filter (fun m => m.hasEnvelope)).length ∧
    (enumSrcMsgs st mails fsize msgs).1.skm_no_envelope
      = st.skm_no_envelope + (msgs.filter (fun m => !m.hasEnvelope)).length ∧
    conservMu (enumSrcMsgs st mails fsize msgs).1 = conservMu st ∧
    ((enumSrcMsgs st mails fsize msgs).2.1 = [] →
      mails = [] ∧ msgs.filter (fun m => m.hasEnvelope) = []) := by
  intro msgs
  induction msgs with
  | nil =>
    intro st mails fsize
    exact ⟨by simp [enumSrcMsgs], by simp [enumSrcMsgs], rfl,
      fun h => ⟨h, by simp⟩⟩
  | cons m ms ih =>
    intro st mails fsize
    by_cases hm : m.hasEnvelope = true
    · have hstep : enumSrcMsgs st mails fsize (m :: ms)
        = enumSrcMsgs { st with source_mails := st.source_mails + 1 }
            (pyDictInsert mails m.uid ⟨m.size, subjectOf m, m.msgId⟩)
            (fsize + m.size) ms := by
        simp [enumSrcMsgs, hm]
      obtain ⟨i1, i2, i3, i4⟩ := ih { st with source_mails := st.source_mails + 1 }
        (pyDictInsert mails m.uid ⟨m.size, subjectOf m, m.msgId⟩) (fsize + m.size)
      rw [hstep]
      refine ⟨?_, ?_, ?_, ?_⟩
      · rw [i1]
        simp [List.filter_cons, hm]
        omega
      · rw [i2]
        simp [List.filter_cons, hm]
      · rw [i3]
        simp [conservMu]
      · intro hnil
        exact absurd (i4 hnil).1 (pyDictInsert_ne_nil mails m.uid _)
    · have hmf : m.hasEnvelope = false := by
        cases hb : m.hasEnvelope
        · rfl
        · exact absurd hb hm
      have hstep : enumSrcMsgs st mails fsize (m :: ms)
        = enumSrcMsgs { st with skm_no_envelope := st.skm_no_envelope + 1 }
            mails fsize ms := by
        simp [enumSrcMsgs, hmf]
      obtain ⟨i1, i2, i3, i4⟩ := ih { st with skm_no_envelope := st.skm_no_envelope + 1 }
        mails fsize
      rw [hstep]
      refine ⟨?_, ?_, ?_, ?_⟩
      · rw [i1]
        simp [List.filter_cons, hmf]
      · rw [i2]
        simp [List.filter_cons, hmf]
        omega
      · rw [i3]
        simp [conservMu]
      · intro hnil
        refine ⟨(i4 hnil).1, ?_⟩
        rw [List.filter_cons, if_neg (by simp [hmf])]
        exact (i4 hnil).2

/-- A list whose ENVELOPE rows and missing-ENVELOPE rows are both empty is
empty. -/
theorem eq_nil_of_filters (l : List SrcMsg)
    (h1 : l.filter (fun m => m.hasEnvelope) = [])
    (h2 : l.filter (fun m => !m.hasEnvelope) = []) : l = [] := by
  cases l with
  | nil => rfl
  | cons m ms =>
    by_cases hm : m.hasEnvelope = true
    · simp [List.filter_cons, hm] at h1
    · simp [List.filter_cons, hm] at h2

/-- Invariant of the source enumeration fold: `source_mails` and
`no_envelope` grow by exactly the per-folder envelope / missing-envelope
buffer counts of the folders appended to the db, the conservation measure
is untouched, and every appended folder has an empty ENVELOPE-filtered
buffer whenever its manifest is empty. -/
theorem enumSource_fold_inv (a : Args) :
    ∀ (folders : List SrcFolder) (st : Stats) (db : List FolderMan),
    (List.foldl (fun acc f => enumSourceFolder a acc.1 acc.2 f) (st, db) folders).1.source_mails
        + (db.map envBufLen).sum
      = st.source_mails
        + (((List.foldl (fun acc f => enumSourceFolder a acc.1 acc.2 f) (st, db) folders).2.map envBufLen).sum) ∧
    (List.foldl (fun acc f => enumSourceFolder a acc.1 acc.2 f) (st, db) folders).1.skm_no_envelope
        + (db.map noenvBufLen).sum
      = st.skm_no_envelope
        + (((List.foldl (fun acc f => enumSourceFolder a acc.1 acc.2 f) (st, db) folders).2.map noenvBufLen).sum) ∧
    conservMu (List.foldl (fun acc f => enumSourceFolder a acc.1 acc.2 f) (st, db) folders).1
      = conservMu st ∧
    (∀ fm ∈ (List.foldl (fun acc f => enumSourceFolder a acc.1 acc.2 f) (st, db) folders).2,
      fm ∈ db ∨
        (fm.mails = [] → fm.buffer.filter (fun m => m.hasEnvelope) = [])) := by
  intro folders
  induction folders with
  | nil =>
    intro st db
    exact ⟨rfl, rfl, rfl, fun fm hm => Or.inl hm⟩
  | cons f fs ih =>
    intro st db
    have hstep : List.foldl (fun acc f => enumSourceFolder a acc.1 acc.2 f) (st, db) (f :: fs)
        = List.foldl (fun acc f => enumSourceFolder a acc.1 acc.2 f)
            (enumSourceFolder a st db f) fs := by
      simp [List.foldl_cons]
    rw [hstep]
    by_cases hc1 : a.source_mailbox ≠ [] ∧ f.name ∉ a.source_mailbox
    · have hsf : enumSourceFolder a st db f = (st, db) := by
        rw [enumSourceFolder, if_pos hc1]
      rw [hsf]
      exact ih st db
    · by_cases hc2 : f.msgs = [] ∧ a.skip_empty_folders
      · have hsf : enumSourceFolder a st db f = (st, db) := by
          rw [enumSourceFolder, if_neg hc1, if_pos hc2]
        rw [hsf]
        exact ih st db
      · have hsf : enumSourceFolder a st db f
            = ((enumSrcMsgs st [] 0 f.msgs).1,
               db ++ [⟨f.name, f.flags, (enumSrcMsgs st [] 0 f.msgs).2.1,
                      (enumSrcMsgs st [] 0 f.msgs).2.2, f.msgs⟩]) := by
          rw [enumSourceFolder, if_neg hc1, if_neg hc2]
        rw [hsf]
        obtain ⟨s1, s2, s3, s4⟩ := enumSrcMsgs_spec f.msgs st [] 0
        obtain ⟨j1, j2, j3, j4⟩ := ih (enumSrcMsgs st [] 0 f.msgs).1
          (db ++ [⟨f.name, f.flags, (enumSrcMsgs st [] 0 f.msgs).2.1,
                  (enumSrcMsgs st [] 0 f.msgs).2.2, f.msgs⟩])
        have henv : envBufLen ⟨f.name, f.flags, (enumSrcMsgs st [] 0 f.msgs).2.1,
            (enumSrcMsgs st [] 0 f.msgs).2.2, f.msgs⟩
            = (f.msgs.filter (fun m => m.hasEnvelope)).length := rfl
        have hnoenv : noenvBufLen ⟨f.name, f.flags, (enumSrcMsgs st [] 0 f.msgs).2.1,
            (enumSrcMsgs st [] 0 f.msgs).2.2, f.msgs⟩
            = (f.msgs.filter (fun m => !m.hasEnvelope)).length := rfl
        refine ⟨?_, ?_, ?_, ?_⟩
        · rw [List.map_append, List.sum_append] at j1
          simp only [List.map_cons, List.map_nil, List.sum_cons, List.sum_nil] at j1
          rw [henv] at j1
          omega
        · rw [List.map_append, List.sum_append] at j2
          simp only [List.map_cons, List.map_nil, List.sum_cons, List.sum_nil] at j2
          rw [hnoenv] at j2
          omega
        · rw [j3, s3]
        · intro fm hm
          rcases j4 fm hm with hin | hp
          · rcases List.mem_append.mp hin with hin2 | hin2
            · exact Or.inl hin2
            · right
              rw [List.mem_singleton.mp hin2]
              intro hmails
              exact (s4 hmails).2
          · exact Or.inr hp

/-- Destination message enumeration touches only `destination_mails`. -/
theorem enumDstMsgs_pres :
    ∀ (msgs : List DstMsgW) (a : Args) (st : Stats)
      (mails : List (Nat × DstMeta)) (fsize : Nat),
    (enumDstMsgs a st mails fsize msgs).1.source_mails = st.source_mails ∧
    (enumDstMsgs a st mails fsize msgs).1.skm_no_envelope = st.skm_no_envelope ∧
    conservMu (enumDstMsgs a st mails fsize msgs).1 = conservMu st := by
  intro msgs
  induction msgs with
  | nil => intro a st mails fsize; exact ⟨rfl, rfl, rfl⟩
  | cons m ms ih =>
    intro a st mails fsize
    have hstep : enumDstMsgs a st mails fsize (m :: ms)
        = enumDstMsgs a { st with destination_mails := st.destination_mails + 1 }
            (pyDictInsert mails m.uid
              ⟨m.size, if a.incremental then some m.msgId else none⟩)
            (fsize + m.size) ms := rfl
    rw [hstep]
    obtain ⟨i1, i2, i3⟩ := ih a { st with destination_mails := st.destination_mails + 1 }
      (pyDictInsert mails m.uid ⟨m.size, if a.incremental then some m.msgId else none⟩)
      (fsize + m.size)
    exact ⟨i1, i2, by rw [i3]; rfl⟩

/-- Destination folder enumeration preserves the source-side counters and
the conservation measure. -/
theorem enumDestFolder_pres (a : Args) (sdelim : Option Char) (ddelim : Char)
    (st : Stats) (db : List DstMan) (f : DstFolderW) (st2 : Stats)
    (db2 : List DstMan)
    (h : enumDestFolder a sdelim ddelim st db f = Except.ok (st2, db2)) :
    st2.source_mails = st.source_mails ∧
    st2.skm_no_envelope = st.skm_no_envelope ∧
    conservMu st2 = conservMu st := by
  unfold enumDestFolder at h
  split at h
  · cases sdelim with
    | none => simp at h
    | some sd =>
      simp only at h
      split at h
      · cases h
        exact ⟨rfl, rfl, rfl⟩
      · cases h
        exact enumDstMsgs_pres f.msgs a st [] 0
  · cases h
    exact enumDstMsgs_pres f.msgs a st [] 0

/-- Destination enumeration preserves the source-side counters and the
conservation measure. -/
theorem enumDest_pres (a : Args) (sdelim : Option Char) (ddelim : Char) :
    ∀ (folders : List DstFolderW) (st : Stats) (db : List DstMan)
      (st2 : Stats) (db2 : List DstMan),
    enumDest a sdelim ddelim st db folders = Except.ok (st2, db2) →
    st2.source_mails = st.source_mails ∧
    st2.skm_no_envelope = st.skm_no_envelope ∧
    conservMu st2 = conservMu st := by
  intro folders
  induction folders with
  | nil =>
    intro st db st2 db2 h
    cases h
    exact ⟨rfl, rfl, rfl⟩
  | cons f fs ih =>
    intro st db st2 db2 h
    simp only [enumDest] at h
    split at h
    · cases h
    next st3 db3 heq =>
      obtain ⟨p1, p2, p3⟩ := enumDestFolder_pres a sdelim ddelim st db f st3 db3 heq
      obtain ⟨q1, q2, q3⟩ := ih st3 db3 st2 db2 h
      exact ⟨by rw [q1, p1], by rw [q2, p2], by rw [q3, p3]⟩

/-- The whole destination enumeration phase preserves the source-side
counters and the conservation measure. -/
theorem enumDestAll_pres (a : Args) (sdelim : Option Char) (st : Stats)
    (folders : List DstFolderW) (st2 : Stats) (db2 : List DstMan)
    (h : enumDestAll a sdelim st folders = Except.ok (st2, db2)) :
    st2.source_mails = st.source_mails ∧
    st2.skm_no_envelope = st.skm_no_envelope ∧
    conservMu st2 = conservMu st := by
  cases folders with
  | nil =>
    cases h
    exact ⟨rfl, rfl, rfl⟩
  | cons f fs => exact enumDest_pres a sdelim f.delim (f :: fs) st [] st2 db2 h

/-- No branch of the per-message step touches `no_envelope` (it is counted
only during enumeration). -/
theorem transferMsg_noenv (a : Args) (denied : List String)
    (mails : List (Nat × MsgMeta)) (dfName : String) (dfExists : Bool)
    (destDb : List DstMan) (ts : TState) (m : SrcMsg) :
    (transferMsg a denied mails dfName dfExists destDb ts m).1.stats.skm_no_envelope
      = ts.stats.skm_no_envelope := by
  simp only [transferMsg]
  repeat' split
  all_goals rfl

/-- The buffer loop never touches `no_envelope`. -/
theorem transferMsgs_noenv (a : Args) (denied : List String)
    (mails : List (Nat × MsgMeta)) (dfName : String) (dfExists : Bool)
    (destDb : List DstMan) :
    ∀ (msgs : List SrcMsg) (ts : TState),
    (transferMsgs a denied mails dfName dfExists destDb ts msgs).1.stats.skm_no_envelope
      = ts.stats.skm_no_envelope := by
  intro msgs
  induction msgs with
  | nil => intro ts; rfl
  | cons m ms ih =>
    intro ts
    simp only [transferMsgs]
    split
    next ts3 heq =>
      have hm := transferMsg_noenv a denied mails dfName dfExists destDb ts m
      rw [heq] at hm
      rw [ih ts3, hm]
    next ts3 e hne heq =>
      have hm := transferMsg_noenv a denied mails dfName dfExists destDb ts m
      rw [heq] at hm
      exact hm

/-- The per-folder transfer never touches `no_envelope`. -/
theorem transferFolder_noenv (a : Args) (w : World) (denied : List String)
    (sdelim ddelim : Option Char) (destDb : List DstMan)
    (redirs : List (String × String)) (ts : TState) (sf : FolderMan) :
    (transferFolder a w denied sdelim ddelim destDb redirs ts sf).1.stats.skm_no_envelope
      = ts.stats.skm_no_envelope := by
  have hfb : ∀ (dfn : String) (dfe : Bool) (ts' : TState),
      (folderBody a denied destDb dfn dfe sf ts').1.stats.skm_no_envelope
        = ts'.stats.skm_no_envelope := by
    intro dfn dfe ts'
    unfold folderBody
    split
    · rfl
    · exact transferMsgs_noenv a denied sf.mails dfn dfe destDb sf.buffer ts'
  cases sdelim with
  | none => rfl
  | some sd =>
    cases ddelim with
    | none => rfl
    | some dd =>
      simp only [transferFolder]
      repeat' split
      all_goals (try rw [hfb])
      all_goals rfl

/-- The folder loop never touches `no_envelope`. -/
theorem transferFolders_noenv (a : Args) (w : World) (denied : List String)
    (sdelim ddelim : Option Char) (destDb : List DstMan)
    (redirs : List (String × String)) :
    ∀ (sfs : List FolderMan) (ts : TState),
    (transferFolders a w denied sdelim ddelim destDb redirs ts sfs).1.stats.skm_no_envelope
      = ts.stats.skm_no_envelope := by
  intro sfs
  induction sfs with
  | nil => intro ts; rfl
  | cons sf sfs ih =>
    intro ts
    simp only [transferFolders]
    split
    next ts3 heq =>
      have hm := transferFolder_noenv a w denied sdelim ddelim destDb redirs ts sf
      rw [heq] at hm
      rw [ih ts3, hm]
    next ts3 e hne heq =>
      have hm := transferFolder_noenv a w denied sdelim ddelim destDb redirs ts sf
      rw [heq] at hm
      exact hm

/-- Sorted insertion is a permutation of consing. -/
theorem insertFolderSorted_perm (x : FolderMan) (l : List FolderMan) :
    (insertFolderSorted x l).Perm (x :: l) := by
  induction l with
  | nil => exact List.Perm.refl _
  | cons y ys ih =>
    simp only [insertFolderSorted]
    split
    · exact List.Perm.refl _
    · exact (List.Perm.cons y ih).trans (List.Perm.swap x y ys)

/-- The case-insensitive folder sort permutes the source db. -/
theorem sortFolders_perm (l : List FolderMan) : (sortFolders l).Perm l := by
  have key : ∀ (l acc : List FolderMan),
      (List.foldl (fun acc f => insertFolderSorted f acc) acc l).Perm (acc ++ l) := by
    intro l
    induction l with
    | nil => intro acc; simp
    | cons f fs ih =>
      intro acc
      rw [List.foldl_cons]
      refine (ih (insertFolderSorted f acc)).trans ?_
      refine (List.Perm.append_right fs (insertFolderSorted_perm f acc)).trans ?_
      exact List.perm_middle.symm
  simpa using key l []

/-- A buffer with no missing-ENVELOPE rows is returned whole by the
ENVELOPE filter. -/
theorem filter_env_all (l : List SrcMsg)
    (h : l.filter (fun m => !m.hasEnvelope) = []) :
    l.filter (fun m => m.hasEnvelope) = l := by
  induction l with
  | nil => rfl
  | cons m ms ih =>
    by_cases hm : m.hasEnvelope = true
    · rw [List.filter_cons, if_pos (by simp [hm])]
      rw [List.filter_cons, if_neg (by simp [hm])] at h
      rw [ih h]
    · rw [List.filter_cons, if_pos (by simp [hm])] at h
      cases h

/-- The conservation left-hand side splits into the transfer-time measure
plus the enumeration-time `no_envelope` count. -/
theorem conservationLHS_eq (s : Stats) :
    conservationLHS s = conservMu s + s.skm_no_envelope := by
  simp only [conservationLHS, conservMu, skippedMailsSum]
  omega

/-- Successful phases continue into their continuation. -/
theorem exceptCase_ok (v : α) (f : α → RunRes) (r : RunRes) :
    exceptCase (Except.ok v) f r = f v := rfl

/-- Failed phases yield the crash result. -/
theorem exceptCase_error (e : Unit) (f : α → RunRes) (r : RunRes) :
    exceptCase (Except.error e) f r = r := rfl

/-- A cleanly finished transfer loop completes the run. -/
theorem stepCase_ok (ts : TState) : stepCase (ts, StepOut.ok)
    = ⟨Outcome.completed, ts.stats, ts.trace⟩ := rfl

/-- C1 counterexample: a completed run (`wBase`, no dry-run, no abort) in
which one message lacked an ENVELOPE: the message is counted under
`skipped_mails.no_envelope` at enumeration AND recorded as a lookup-miss
error at transfer, while never entering `source_mails`, so
`copied + Σ skipped + |errors| = 3` while `source_mails = 1`. -/
theorem C1_counterexample :
    (fullRun argsBase wBase).outcome = Outcome.completed ∧
    conservationLHS (fullRun argsBase wBase).stats = 3 ∧
    (fullRun argsBase wBase).stats.source_mails = 1 := by decide

/-- C1 amended: in a run that completes without abort, with dry-run off,
where CREATE never fails with a non-already-exists error and every
enumerated message carried an ENVELOPE, the conservation identity holds:
`copied_mails + Σ skipped_mails + |errors| = source_mails`.  (With
envelope-less messages the left side exceeds `source_mails` by two per such
message — once under `no_envelope`, once as a lookup-miss error.) -/
theorem C1_amended (a : Args) (w : World)
    (hout : (fullRun a w).outcome = Outcome.completed)
    (hdry : a.dry_run = false)
    (hcr : ∀ n, createOkOrAlready (w.createRes n))
    (hnoenv : (fullRun a w).stats.skm_no_envelope = 0) :
    conservationLHS (fullRun a w).stats = (fullRun a w).stats.source_mails := by
  by_cases h1 : (!(w.srcConnOk && w.srcLoginOk && (w.dstConnOk && w.dstLoginOk))) = true
  · have hfr : fullRun a w = ⟨Outcome.abortLogin, initStats, []⟩ := by
      unfold fullRun
      rw [if_pos h1]
    rw [hfr] at hout
    simp at hout
  · by_cases h2 : quotaCrash a w = true
    · have hfr : fullRun a w = ⟨Outcome.crashed, initStats, []⟩ := by
        unfold fullRun
        rw [if_neg h1, if_pos h2]
      rw [hfr] at hout
      simp at hout
    · by_cases h3 : quotaInsufficient a w = true
      · have hfr : fullRun a w = ⟨Outcome.abortQuota, initStats, []⟩ := by
          unfold fullRun
          rw [if_neg h1, if_neg h2, if_pos h3]
        rw [hfr] at hout
        simp at hout
      · have hfr1 : fullRun a w
            = runDestPhase a w (enumSource a initStats w.sourceFolders).1
                (enumSource a initStats w.sourceFolders).2 := by
          unfold fullRun
          rw [if_neg h1, if_neg h2, if_neg h3]
        rcases hdst : enumDestAll a (sdelimOf w)
            (enumSource a initStats w.sourceFolders).1 w.destFolders
          with e | ⟨st2, destDb⟩
        · have hfr2 : fullRun a w
              = ⟨Outcome.crashed, (enumSource a initStats w.sourceFolders).1, []⟩ := by
            rw [hfr1]
            unfold runDestPhase
            rw [hdst]
            rfl
          rw [hfr2] at hout
          simp at hout
        · have hfr2 : fullRun a w
              = runAfterEnums a w (enumSource a initStats w.sourceFolders).2 st2 destDb := by
            rw [hfr1]
            unfold runDestPhase
            rw [hdst]
            rfl
          by_cases hl : a.list = true
          · have hfr3 : fullRun a w = ⟨Outcome.exitListMode, st2, []⟩ := by
              rw [hfr2]
              unfold runAfterEnums
              rw [if_pos hl]
            rw [hfr3] at hout
            simp at hout
          · rcases hpr : parseRedirects
                (((enumSource a initStats w.sourceFolders).2).map (fun f => f.name))
                a.redirect ([], []) with e | ⟨redirs, notFound⟩
            · have hfr3 : fullRun a w = ⟨Outcome.crashed, st2, []⟩ := by
                rw [hfr2]
                unfold runAfterEnums
                rw [if_neg hl, hpr]
                rfl
              rw [hfr3] at hout
              simp at hout
            · by_cases hnf : notFound ≠ []
              · have hfr3 : fullRun a w = ⟨Outcome.abortRedirect, st2, []⟩ := by
                  rw [hfr2]
                  unfold runAfterEnums
                  rw [if_neg hl, hpr]
                  show (if notFound ≠ [] then (⟨Outcome.abortRedirect, st2, []⟩ : RunRes)
                    else runTransferPhase a w (enumSource a initStats w.sourceFolders).2
                      st2 destDb redirs) = ⟨Outcome.abortRedirect, st2, []⟩
                  rw [if_pos hnf]
                rw [hfr3] at hout
                simp at hout
              · have hfr3 : fullRun a w
                    = runTransferPhase a w (enumSource a initStats w.sourceFolders).2
                        st2 destDb redirs := by
                  rw [hfr2]
                  unfold runAfterEnums
                  rw [if_neg hl, hpr]
                  show (if notFound ≠ [] then (⟨Outcome.abortRedirect, st2, []⟩ : RunRes)
                    else runTransferPhase a w (enumSource a initStats w.sourceFolders).2
                      st2 destDb redirs)
                    = runTransferPhase a w (enumSource a initStats w.sourceFolders).2
                        st2 destDb redirs
                  rw [if_neg hnf]
                rcases htf : transferFolders a w (effectiveDeniedFlags a.denied_flags)
                    (sdelimOf w) (ddelimOf w) destDb redirs ⟨st2, []⟩
                    (sortFolders (enumSource a initStats w.sourceFolders).2)
                  with ⟨ts, o⟩
                cases o with
                | ki =>
                  have hfr4 : fullRun a w = ⟨Outcome.finishedAfterAbort, ts.stats, ts.trace⟩ := by
                    rw [hfr3]
                    unfold runTransferPhase
                    rw [htf]
                    rfl
                  rw [hfr4] at hout
                  simp at hout
                | crash =>
                  have hfr4 : fullRun a w = ⟨Outcome.crashed, ts.stats, ts.trace⟩ := by
                    rw [hfr3]
                    unfold runTransferPhase
                    rw [htf]
                    rfl
                  rw [hfr4] at hout
                  simp at hout
                | ok =>
                  have hfr4 : fullRun a w = ⟨Outcome.completed, ts.stats, ts.trace⟩ := by
                    rw [hfr3]
                    unfold runTransferPhase
                    rw [htf]
                    rfl
                  rw [hfr4] at hnoenv ⊢
                  simp only at hnoenv ⊢
                  -- enumeration invariants
                  obtain ⟨e1, e2, e3, e4⟩ := enumSource_fold_inv a w.sourceFolders initStats []
                  have hE : List.foldl (fun acc f => enumSourceFolder a acc.1 acc.2 f)
                      (initStats, []) w.sourceFolders
                      = enumSource a initStats w.sourceFolders := rfl
                  rw [hE] at e1 e2 e3 e4
                  simp only [List.map_nil, List.sum_nil, Nat.add_zero] at e1 e2
                  have hmu0 : conservMu initStats = 0 := rfl
                  have hsm0 : initStats.source_mails = 0 := rfl
                  have hne0 : initStats.skm_no_envelope = 0 := rfl
                  -- destination enumeration preserves the source counters
                  obtain ⟨p1, p2, p3⟩ := enumDestAll_pres a (sdelimOf w)
                    (enumSource a initStats w.sourceFolders).1 w.destFolders st2 destDb hdst
                  -- no_envelope is preserved by the transfer, hence zero throughout
                  have hts_noenv := transferFolders_noenv a w
                    (effectiveDeniedFlags a.denied_flags) (sdelimOf w) (ddelimOf w)
                    destDb redirs (sortFolders (enumSource a initStats w.sourceFolders).2)
                    ⟨st2, []⟩
                  rw [htf] at hts_noenv
                  have hst2_noenv : st2.skm_no_envelope = 0 := by
                    rw [← hts_noenv]
                    exact hnoenv
                  have hE1_noenv :
                      (enumSource a initStats w.sourceFolders).1.skm_no_envelope = 0 := by
                    rw [← p2]
                    exact hst2_noenv
                  have hsum_noenv :
                      (((enumSource a initStats w.sourceFolders).2).map noenvBufLen).sum = 0 := by
                    omega
                  have hall_noenv : ∀ sf ∈ (enumSource a initStats w.sourceFolders).2,
                      sf.buffer.filter (fun m => !m.hasEnvelope) = [] := by
                    intro sf hsf
                    have h0 : noenvBufLen sf = 0 :=
                      List.sum_eq_zero_iff.mp hsum_noenv (noenvBufLen sf)
                        (List.mem_map_of_mem noenvBufLen hsf)
                    exact List.length_eq_zero.mp h0
                  -- empty manifest implies empty buffer, for every folder
                  have hmb_all : ∀ sf ∈ sortFolders (enumSource a initStats w.sourceFolders).2,
                      sf.mails = [] → sf.buffer = [] := by
                    intro sf hsf hm
                    have hsf2 : sf ∈ (enumSource a initStats w.sourceFolders).2 :=
                      (sortFolders_perm _).mem_iff.mp hsf
                    rcases e4 sf hsf2 with hnil | hp
                    · exact absurd hnil (List.not_mem_nil sf)
                    · exact eq_nil_of_filters sf.buffer (hp hm) (hall_noenv sf hsf2)
                  -- the conservation measure over the transfer
                  obtain ⟨g1, g2, g3⟩ := transferFolders_ok_mu a w
                    (effectiveDeniedFlags a.denied_flags) (sdelimOf w) (ddelimOf w)
                    destDb redirs hdry hcr
                    (sortFolders (enumSource a initStats w.sourceFolders).2)
                    ⟨st2, []⟩ ts hmb_all htf
                  have g1s : conservMu ts.stats
                      = conservMu st2
                        + (((sortFolders (enumSource a initStats w.sourceFolders).2).map
                            (fun sf => sf.buffer.length)).sum) := g1
                  have g2s : ts.stats.source_mails = st2.source_mails := g2
                  -- buffered-message total equals the envelope total
                  have hsum_perm : (((sortFolders (enumSource a initStats w.sourceFolders).2).map
                        (fun sf => sf.buffer.length)).sum)
                      = ((((enumSource a initStats w.sourceFolders).2).map
                        (fun sf => sf.buffer.length)).sum) :=
                    ((sortFolders_perm _).map _).sum_eq
                  have hmap_env : (((enumSource a initStats w.sourceFolders).2).map
                        (fun sf => sf.buffer.length))
                      = (((enumSource a initStats w.sourceFolders).2).map envBufLen) := by
                    refine List.map_congr_left ?_
                    intro sf hsf
                    show sf.buffer.length = envBufLen sf
                    unfold envBufLen
                    rw [filter_env_all sf.buffer (hall_noenv sf hsf)]
                  rw [conservationLHS_eq, hnoenv]
                  rw [hmap_env] at hsum_perm
                  omega

/-- C1 witness: the amended conservation identity applied to the concrete
all-ENVELOPE world, whose run completes with one copied mail. -/
theorem C1_witness :
    conservationLHS (fullRun argsBase wAllEnv).stats
      = (fullRun argsBase wAllEnv).stats.source_mails :=
  C1_amended argsBase wAllEnv (by decide) rfl (fun _ => trivial) (by decide)
